import Mathlib

/-!
# Verification of the tkinter_GUI time-series front-end

A shallow embedding, in Lean 4, of the query-construction, tag-resolution,
response-normalization, caching and resampling logic of this repository
(`API_Calls.py`, `DataLinkWrapper.py`, `GUI.py`, `Graphs.py`), together with
theorems settling the specification's claims about that logic.

Modelling conventions:
* Python `str` is modelled as `Str := List Nat` (a list of Unicode code
  points).  `S "…"` injects a Lean string literal.  `str.lower`/`str.upper`
  are modelled by their ASCII case mapping (`cpLower`/`cpUpper`), which is
  the fragment relevant to the tag-casing and digit-coercion claims.
* Python values flowing through JSON payloads and pandas cells are modelled
  by the inductive `JVal`; Python `None` is `JVal.null`.  A missing /
  not-a-number pandas cell (`NaN` / `NaT` / `pd.NA`) is `Option.none` at the
  cell level (`Cell := Option JVal`).
* pandas `DataFrame`s produced by the response normalizer are modelled by
  `PFrame`: an ordered list of column labels plus rows represented as
  ordered association lists (label, cell).  Duplicate labels (possible after
  `_rename_common_keys`) are kept; cell lookup takes the first match.
* Fallible Python code (raising exceptions) is modelled with `Option` /
  `Except`; every embedded function is total.
-/

/-- Python strings, as lists of Unicode code points. -/
abbrev Str := List Nat

/-- Inject a Lean string literal into the `Str` model. -/
def S (s : String) : Str := s.data.map Char.toNat

/-- ASCII case mapping of `str.lower` (per-code-point). -/
def cpLower (c : Nat) : Nat := if 65 ≤ c ∧ c ≤ 90 then c + 32 else c

/-- ASCII case mapping of `str.upper` (per-code-point). -/
def cpUpper (c : Nat) : Nat := if 97 ≤ c ∧ c ≤ 122 then c - 32 else c

/-- Model of Python `str.lower()` (ASCII fragment). -/
def strLower (s : Str) : Str := s.map cpLower

/-- Model of Python `str.upper()` (ASCII fragment). -/
def strUpper (s : Str) : Str := s.map cpUpper

/-- Code points stripped by Python `str.strip()` (ASCII whitespace). -/
def isSpaceCp (c : Nat) : Bool :=
  c = 32 || c = 9 || c = 10 || c = 13 || c = 11 || c = 12

/-- Model of Python `str.strip()`. -/
def strStrip (s : Str) : Str :=
  (s.dropWhile isSpaceCp).reverse.dropWhile isSpaceCp |>.reverse

/-- ASCII decimal digit test. -/
def isDigitCp (c : Nat) : Bool := 48 ≤ c && c ≤ 57

/-- Model of Python `str.isdigit()` (ASCII fragment): non-empty and all
digits. -/
def strIsdigit (s : Str) : Bool := !s.isEmpty && s.all isDigitCp

/-- Lexicographic strict comparison of code-point strings (Python `str`
order). -/
def strLtB : Str → Str → Bool
  | [], [] => false
  | [], _ :: _ => true
  | _ :: _, [] => false
  | a :: as, b :: bs => if a = b then strLtB as bs else decide (a < b)

/-- Non-strict version of `strLtB`. -/
def strLeB (a b : Str) : Bool := strLtB a b || a = b

/-- JSON / Python values carried by payloads and pandas object cells.
`null` doubles as Python `None`. -/
inductive JVal where
  | null : JVal
  | bool (b : Bool) : JVal
  | num (q : ℚ) : JVal
  | str (s : Str) : JVal
  | arr (xs : List JVal) : JVal
  | obj (fields : List (Str × JVal)) : JVal

/-- Model of `dict.get(k)` on a JSON object: first binding of `k`, `none` when the
value is not an object or lacks the key. -/
def JVal.get (v : JVal) (k : Str) : Option JVal :=
  match v with
  | .obj fields => (fields.find? (fun kv => kv.1 = k)).map (·.2)
  | _ => none

/-- Python truthiness of a `JVal` (`None`, `False`, `0`, `""`, `[]`, `{}`
are falsy). -/
def JVal.truthy : JVal → Bool
  | .null => false
  | .bool b => b
  | .num q => !(q = 0)
  | .str s => !s.isEmpty
  | .arr xs => !xs.isEmpty
  | .obj fields => !fields.isEmpty

/-- Python `a or b` over `JVal` operands (returns `a` when truthy, else
`b`). -/
def pyOr (a b : JVal) : JVal := if a.truthy then a else b

/-! ## `API_Calls.py` -/

/-- The `APIParams` dataclass of `API_Calls.py`.  Field order follows the
dataclass declaration (it determines `asdict` / `to_query_dict` key order).
`datasets : Option (List Str)` models the `List[str] = None` default. -/
structure APIParams where
  substation : Str := []
  line : Str := []
  transformer : Str := []
  bus : Str := []
  feeder : Str := []
  start_date : Str := []
  end_date : Str := []
  interval_value : Str := S "0"
  interval_unit : Str := S "minute"
  datasets : Option (List Str) := none
  output_unit : Str := S "Amp"
  coincidental_peaks : Bool := false
  multi_phase : Bool := false
  multi_phase_average : Bool := false
deriving DecidableEq, Repr

/-- Python `"true" if v else "false"`. -/
def boolStr (b : Bool) : Str := if b then S "true" else S "false"

/-- Python `",".join(xs)`. -/
def joinComma (xs : List Str) : Str :=
  match xs with
  | [] => []
  | x :: rest => rest.foldl (fun acc s => acc ++ S "," ++ s) x

/-- Model of `APIParams.to_query_dict`: `asdict(self)` in field order; the
`datasets` list is comma-joined (`None` becomes `""`), booleans become
`"true"`/`"false"`, then every entry whose value strips to the empty string
is dropped.  (The source's `elif v is None: d[k] = ""` arm is subsumed by
the `datasets is None` conversion: after it no `None` value remains, since
every other field is string- or bool-typed.) -/
def queryEntries (p : APIParams) : List (Str × Str) :=
  [ (S "substation", p.substation)
  , (S "line", p.line)
  , (S "transformer", p.transformer)
  , (S "bus", p.bus)
  , (S "feeder", p.feeder)
  , (S "start_date", p.start_date)
  , (S "end_date", p.end_date)
  , (S "interval_value", p.interval_value)
  , (S "interval_unit", p.interval_unit)
  , (S "datasets", joinComma (p.datasets.getD []))
  , (S "output_unit", p.output_unit)
  , (S "coincidental_peaks", boolStr p.coincidental_peaks)
  , (S "multi_phase", boolStr p.multi_phase)
  , (S "multi_phase_average", boolStr p.multi_phase_average) ]

def APIParams.to_query_dict (p : APIParams) : List (Str × Str) :=
  (queryEntries p).filter (fun kv => !(strStrip kv.2).isEmpty)

/-- Model of `build_api_params` of `API_Calls.py`.  `device_params.get(k, "")` is
modelled by passing the five device strings directly (an absent key is the
empty string). -/
def build_api_params (substation line transformer bus feeder : Str)
    (start_date end_date interval_value interval_unit : Str)
    (datasets : List Str) (output_unit : Str)
    (coincidental_peaks multi_phase multi_phase_average : Bool) : APIParams :=
  let iv := strStrip interval_value
  let iv := if !(strIsdigit iv) then S "0" else iv
  { substation := substation
    line := line
    transformer := transformer
    bus := bus
    feeder := feeder
    start_date := start_date
    end_date := end_date
    interval_value := iv
    interval_unit := if interval_unit.isEmpty then S "minute" else interval_unit
    datasets := some datasets
    output_unit := if output_unit.isEmpty then S "Amp" else output_unit
    coincidental_peaks := coincidental_peaks
    multi_phase := multi_phase
    multi_phase_average := if multi_phase then multi_phase_average else false }

/-! ## `DataLinkWrapper.py` — tag resolution -/

/-- One entry of the provider's `/points?nameFilter=…` response, as read by
`PIClient.get_point_webid`: the code touches only `it.get("Name", "")` and
`it.get("WebId")` (both string-typed in the provider schema). -/
structure Candidate where
  name : Option Str := none
  webId : Option Str := none
deriving DecidableEq, Repr

/-- Error outcomes of `get_point_webid` (both raised as `PINotFound`). -/
inductive PIErr where
  | tagNotFound (tag : Str) : PIErr
  | noWebId (tag : Str) : PIErr
deriving DecidableEq, Repr

/-- Model of `PIClient.get_point_webid` (the per-call body, without the `lru_cache`
layer — see `get_point_webid_cached`).  `provider` models the GET to
`{base}/points` as a function from the `nameFilter` value to the `Items`
list of its JSON response; the code calls it with filter equal to `tag`.
`(exact or items)[0]` and `if not webid` follow Python truthiness (an
absent, `None` or empty `WebId` is unusable). -/
def get_point_webid (provider : Str → List Candidate) (tag : Str) :
    Except PIErr Str :=
  let items := provider tag
  if items.isEmpty then .error (.tagNotFound tag)
  else
    let exact := items.filter
      (fun it => strLower (it.name.getD []) = strLower tag)
    let sel := (if !exact.isEmpty then exact else items).headD {}
    match sel.webId with
    | some w => if w.isEmpty then .error (.noWebId tag) else .ok w
    | none => .error (.noWebId tag)

/-- The resolution algorithm as §4.1 of the spec words it (for the
refinement theorem of C2): query the point-listing endpoint with a name
filter equal to the tag; from the candidate set take the (first)
case-insensitive exact name match if one exists, else the first candidate
in provider order; return its identifier; fail exactly when the candidate
set is empty or the selected candidate carries no usable identifier. -/
def spec_resolve (provider : Str → List Candidate) (tag : Str) :
    Except PIErr Str :=
  let candidates := provider tag
  match candidates.find?
      (fun it => strLower (it.name.getD []) = strLower tag) with
  | some c =>
      match c.webId with
      | some w => if w.isEmpty then .error (.noWebId tag) else .ok w
      | none => .error (.noWebId tag)
  | none =>
      match candidates with
      | [] => .error (.tagNotFound tag)
      | c :: _ =>
          match c.webId with
          | some w => if w.isEmpty then .error (.noWebId tag) else .ok w
          | none => .error (.noWebId tag)

/-- The `@lru_cache` layer over `get_point_webid`: the cache is keyed by
the exact argument string (case-sensitive); a hit returns the cached
identifier without touching the provider; a successful miss inserts the
result (exceptions are not cached by `lru_cache`).  Returns the result
together with the updated cache. -/
def get_point_webid_cached (provider : Str → List Candidate)
    (cache : List (Str × Str)) (tag : Str) :
    Except PIErr (Str × List (Str × Str)) :=
  match cache.lookup tag with
  | some w => .ok (w, cache)
  | none =>
      match get_point_webid provider tag with
      | .ok w => .ok (w, (tag, w) :: cache)
      | .error e => .error e

/-! ## `Graphs.py` — parquet cache path -/

/-- Key order on dictionary entries: the lexicographic string order Python
uses to sort keys in `json.dumps(..., sort_keys=True)`. -/
def keyLe (a b : Str × JVal) : Prop := strLeB a.1 b.1 = true

instance : DecidableRel keyLe := fun a b => by
  unfold keyLe; infer_instance

/-- JSON serialization of the dictionary values that appear in a query
parameter dict (a model of `json.dumps`' rendering; string escaping is not
modelled — the claims depend only on the serialization being a function of
the key-sorted entry list). -/
def renderJ : JVal → Str
  | .null => S "null"
  | .bool b => if b then S "true" else S "false"
  | .num q => S "#" ++ (Nat.toDigits 10 q.num.natAbs).map Char.toNat
      ++ S "/" ++ (Nat.toDigits 10 q.den).map Char.toNat
      ++ (if q.num < 0 then S "-" else [])
  | .str s => S "\"" ++ s ++ S "\""
  | .arr xs => S "[" ++ joinComma (xs.attach.map (fun x => renderJ x.1)) ++ S "]"
  | .obj fields =>
      S "\x7b" ++
        joinComma (fields.attach.map
          (fun kv => S "\"" ++ kv.1.1 ++ S "\": " ++ renderJ kv.1.2))
        ++ S "\x7d"
decreasing_by
  · have := List.sizeOf_lt_of_mem x.2
    simp only [JVal.arr.sizeOf_spec]
    omega
  · have h1 := List.sizeOf_lt_of_mem kv.2
    have h2 : sizeOf kv.1.2 < sizeOf kv.1 := by
      obtain ⟨a, b⟩ := kv.1
      simp only [Prod.mk.sizeOf_spec]
      omega
    simp only [JVal.obj.sizeOf_spec]
    omega

/-- Model of `json.dumps(key_obj, sort_keys=True)` on a (top-level) dictionary:
entries are rendered in key-sorted order. -/
def json_dumps_sorted (d : List (Str × JVal)) : Str :=
  renderJ (.obj (d.insertionSort keyLe))

/-- Model of `hashlib.sha256(…).hexdigest()`'s underlying 256-bit digest:
an (unspecified but deterministic) function of the input bytes.  The claims
about the cache path use only determinism and the hex rendering. -/
def sha256digest (s : Str) : Nat :=
  s.foldl (fun h c => (h * 131 + c + 7) % 2 ^ 256) 5381

/-- Lower-case hexadecimal digit. -/
def hexDigitCp (d : Nat) : Nat := if d < 10 then 48 + d else 87 + d

/-- The 64-character hex rendering of the digest (`hexdigest()`). -/
def sha256hexdigest (s : Str) : Str :=
  (List.range 64).map (fun i => hexDigitCp (sha256digest s / 16 ^ (63 - i) % 16))

/-- Model of `cache_dataframe_parquet`'s path computation: temp directory (an
environment input, passed as a parameter), the `pi_cache_` prefix, the
first 16 hex characters of the SHA-256 of the key-sorted JSON serialization
of `key_obj`, and the `.parquet` extension.  (Writing the frame to disk is
I/O and not modelled; the claim is about the path.) -/
def cache_dataframe_parquet_path (tempdir : Str) (key_obj : List (Str × JVal)) :
    Str :=
  let cache_key := (sha256hexdigest (json_dumps_sorted key_obj)).take 16
  tempdir ++ S "/pi_cache_" ++ cache_key ++ S ".parquet"

/-! ## `GUI.py` — date validation in `run_query` -/

/-- A parsed calendar date (`datetime.date`). -/
structure PyDate where
  year : Nat
  month : Nat
  day : Nat
deriving DecidableEq, Repr

/-- Ordering of `datetime.date` values (lexicographic). -/
def PyDate.lt (a b : PyDate) : Prop :=
  a.year < b.year ∨ (a.year = b.year ∧
    (a.month < b.month ∨ (a.month = b.month ∧ a.day < b.day)))

instance : DecidableRel PyDate.lt := fun a b => by
  unfold PyDate.lt; infer_instance

/-- Gregorian leap year (as `calendar`/`datetime` compute it). -/
def isLeapYear (y : Nat) : Bool :=
  (y % 4 = 0 && y % 100 ≠ 0) || y % 400 = 0

/-- Days in a month. -/
def daysInMonth (y m : Nat) : Nat :=
  if m = 2 then (if isLeapYear y then 29 else 28)
  else if m = 4 ∨ m = 6 ∨ m = 9 ∨ m = 11 then 30
  else 31

/-- Decimal value of an all-digit code-point list. -/
def digitsToNat (s : Str) : Nat := s.foldl (fun n c => n * 10 + (c - 48)) 0

/-- Model of `parse_iso` of `GUI.py`: `datetime.strptime(s, "%Y-%m-%d").date()`.
`%Y` matches 1–4 digits, `%m`/`%d` 1–2 digits, the two separators are
literal, nothing may trail; `date(...)` then validates the ranges
(year ≥ 1, month 1–12, day within the month).  `none` models the raised
`ValueError`. -/
def parse_iso (s : Str) : Option PyDate :=
  let ys := s.takeWhile isDigitCp
  let ys := ys.take 4
  let rest := s.drop ys.length
  if ys.isEmpty then none
  else match rest with
    | 45 :: rest1 =>
        let ms := (rest1.takeWhile isDigitCp).take 2
        let rest2 := rest1.drop ms.length
        if ms.isEmpty then none
        else match rest2 with
          | 45 :: rest3 =>
              let ds := (rest3.takeWhile isDigitCp).take 2
              let rest4 := rest3.drop ds.length
              if ds.isEmpty ∨ !rest4.isEmpty then none
              else
                let y := digitsToNat ys
                let m := digitsToNat ms
                let d := digitsToNat ds
                if 1 ≤ y ∧ 1 ≤ m ∧ m ≤ 12 ∧ 1 ≤ d ∧ d ≤ daysInMonth y m then
                  some ⟨y, m, d⟩
                else none
          | _ => none
    | _ => none

/-- Observable outcome of `DeviceShuttleApp.run_query`: an error dialog
(no network traffic), or the API call `execute_query(cfg, params)` with the
parameters it was given. -/
inductive RunOutcome where
  | invalidDateDialog : RunOutcome
  | invalidRangeDialog : RunOutcome
  | executedQuery (params : APIParams) : RunOutcome
deriving DecidableEq, Repr

/-- Model of `DeviceShuttleApp.run_query`, up to the point where the network call
`execute_query` is issued.  GUI state is passed as explicit inputs (the
date entry strings, the shuttle's device selections, the dataset check
boxes, and the option widgets). -/
def run_query (startStr endStr : Str)
    (substation line transformer bus feeder : Str)
    (ds_min ds_avg ds_max : Bool) (interval_value interval_unit : Str)
    (output_unit : Str) (coincidental multi_phase multi_avg : Bool) :
    RunOutcome :=
  match parse_iso startStr, parse_iso endStr with
  | some start_d, some end_d =>
      if PyDate.lt end_d start_d then .invalidRangeDialog
      else
        let datasets := (if ds_min then [S "Minimum"] else []) ++
          (if ds_avg then [S "Average"] else []) ++
          (if ds_max then [S "Maximum"] else [])
        .executedQuery (build_api_params substation line transformer bus feeder
          startStr endStr (strStrip interval_value)
          (if (strStrip interval_unit).isEmpty then S "minute"
            else strStrip interval_unit)
          datasets output_unit coincidental multi_phase multi_avg)
  | _, _ => .invalidDateDialog

/-! ## `Graphs.py` — response normalizer -/

/-- One pandas cell: `none` is a missing value (`NaN` / `NaT` / `pd.NA`). -/
abbrev Cell := Option JVal

/-- One DataFrame row: an ordered association list from column label to
cell.  Duplicate labels (possible after renaming) are kept in order. -/
abbrev PRow := List (Str × Cell)

/-- Model of a pandas `DataFrame`: ordered column labels plus rows. -/
structure PFrame where
  cols : List Str
  data : List PRow

/-- Cell of `row` under label `k` (first match), `none` when absent. -/
def cellOf (row : PRow) (k : Str) : Cell :=
  ((row.find? (fun kv => kv.1 = k)).map (·.2)).join

/-- Model of `pd.DataFrame()` (no columns, no rows). -/
def PFrame.emptyF : PFrame := ⟨[], []⟩

/-- Model of `df.empty`: no rows or no columns. -/
def PFrame.isEmptyF (f : PFrame) : Bool := f.data.isEmpty || f.cols.isEmpty

/-- First-appearance deduplication of a label list (column union order of
`pd.DataFrame(list_of_dicts)` / `pd.concat`). -/
def dedupKeys (ks : List Str) : List Str :=
  ks.foldl (fun acc k => if k ∈ acc then acc else acc ++ [k]) []

/-- Keys of a JSON object (empty for non-objects). -/
def JVal.objKeys : JVal → List Str
  | .obj fs => fs.map (·.1)
  | _ => []

/-- Check for `JVal.null` (Python `None`). -/
def JVal.isNull : JVal → Bool
  | .null => true
  | _ => false

/-- Check that every element is a JSON object (`pd.DataFrame` over a list
mixing dicts and non-dicts raises; the callers model that as the exception
path). -/
def allObjs (xs : List JVal) : Bool :=
  xs.all (fun x => match x with | .obj _ => true | _ => false)

/-- Model of `pd.DataFrame(items)` for a list of dicts: columns are the
union of keys in first-appearance order; a row's cell under a column is
the dict's value there, `NaN` (`none`) when the key is absent. -/
def pdFrameOfDicts (items : List JVal) : PFrame :=
  let cols := dedupKeys (items.flatMap JVal.objKeys)
  { cols := cols
    data := items.map (fun it => cols.map (fun c => (c, it.get c))) }

/-- Canonical label for one column under `_rename_common_keys` (the
case-insensitive synonym groups of the source; unrecognized labels are kept
unchanged). -/
def renameCommonCol (c : Str) : Str :=
  let lc := strLower c
  if lc = S "timestamp" ∨ lc = S "time" ∨ lc = S "datetime" ∨
      lc = S "localtimestamp" ∨ lc = S "utcseconds" then S "timestamp"
  else if lc = S "value" ∨ lc = S "val" ∨ lc = S "doublevalue" ∨
      lc = S "numericvalue" then S "value"
  else if lc = S "name" ∨ lc = S "tag" ∨ lc = S "point" ∨ lc = S "path" ∨
      lc = S "label" then S "tag"
  else if lc = S "units" ∨ lc = S "unit" ∨ lc = S "unitsabbreviation" then
    S "unit"
  else if lc = S "summarytype" ∨ lc = S "stat" ∨ lc = S "type" then S "stat"
  else c

/-- Model of `_rename_common_keys` (in-place rename of the frame's
columns). -/
def rename_common_keys (f : PFrame) : PFrame :=
  { cols := f.cols.map renameCommonCol
    data := f.data.map (fun row => row.map (fun kv => (renameCommonCol kv.1, kv.2))) }

/-- Model of scalar column assignment `f[k] = v`: replaces every column
labelled `k`, or appends a new one. -/
def PFrame.setCol (f : PFrame) (k : Str) (v : Cell) : PFrame :=
  if k ∈ f.cols then
    { cols := f.cols
      data := f.data.map (fun row =>
        row.map (fun kv => if kv.1 = k then (kv.1, v) else kv)) }
  else
    { cols := f.cols ++ [k], data := f.data.map (fun row => row ++ [(k, v)]) }

/-- Model of column selection `f[labels]` (each requested label picks all
its occurrences, in request order). -/
def PFrame.select (f : PFrame) (labels : List Str) : PFrame :=
  { cols := labels.flatMap (fun l => f.cols.filter (fun c => c = l))
    data := f.data.map (fun row =>
      labels.flatMap (fun l => row.filter (fun kv => kv.1 = l))) }

/-- Model of `pd.concat(frames, ignore_index=True)`: rows are stacked and
reindexed against the first-appearance union of the frames' columns
(missing columns fill with `NaN`; the duplicate-label corner, on which
pandas raises for misaligned frames, is approximated by first-match
lookup). -/
def concatFrames (frames : List PFrame) : PFrame :=
  let cols := dedupKeys (frames.flatMap (·.cols))
  { cols := cols
    data := frames.flatMap (fun fr =>
      fr.data.map (fun row => cols.map (fun c => (c, cellOf row c)))) }

/-- Value of `series.get(k)` with Python's `None` default. -/
def getPy (v : JVal) (k : Str) : JVal := (v.get k).getD .null

/-- Per-series body of the variant-1 loop of `_parse_json_variants`:
`.ok none` when the series is skipped (no usable inner items or missing
canonical columns), `.ok (some f)` for an appended frame, `.error ()` when
`pd.DataFrame` raises. -/
def seriesFrame (series : JVal) : Except Unit (Option PFrame) :=
  let tag := pyOr (getPy series (S "Name")) (pyOr (getPy series (S "Label"))
    (pyOr (getPy series (S "Path")) (getPy series (S "WebId"))))
  let unit := pyOr (getPy series (S "UnitsAbbreviation")) (getPy series (S "Unit"))
  let stat := pyOr (getPy series (S "Stat")) (getPy series (S "SummaryType"))
  let items := pyOr (getPy series (S "Items")) (.arr [])
  match items with
  | .arr xs =>
      match xs.head? with
      | some (.obj _) =>
          if !allObjs xs then .error ()
          else
            let f := rename_common_keys (pdFrameOfDicts xs)
            if (S "timestamp") ∈ f.cols ∧ (S "value") ∈ f.cols then
              let f := f.setCol (S "tag") (some tag)
              let f := if !unit.isNull ∧ (S "unit") ∉ f.cols then
                  f.setCol (S "unit") (some unit) else f
              let f := if !stat.isNull ∧ (S "stat") ∉ f.cols then
                  f.setCol (S "stat") (some stat) else f
              .ok (some (f.select ([S "timestamp", S "value"] ++
                ([S "tag", S "stat", S "unit"].filter (· ∈ f.cols)))))
            else .ok none
      | _ => .ok none
  | _ => .ok none

/-- The variant-1 loop: collect the appended frames, propagating a raised
exception. -/
def seriesFramesAcc (xs : List JVal) : Except Unit (List PFrame) :=
  xs.foldlM (fun acc s => (seriesFrame s).map (fun o =>
    match o with
    | some f => acc ++ [f]
    | none => acc)) []

/-- Shared name of a variant-3 payload: `obj.get('Name') or obj.get('Label')
or obj.get('Path')` (Python truthiness). -/
def v3name (v : JVal) : JVal :=
  pyOr (getPy v (S "Name")) (pyOr (getPy v (S "Label")) (getPy v (S "Path")))

/-- Variant-3 frame construction: zip the paired arrays, attach the shared
name as `tag` and, when truthy, `UnitsAbbreviation` as `unit`. -/
def v3frame (ts vs : List JVal) (v : JVal) : PFrame :=
  let f : PFrame :=
    { cols := [S "timestamp", S "value"]
      data := (ts.zip vs).map (fun p =>
        [(S "timestamp", some p.1), (S "value", some p.2)]) }
  let f := f.setCol (S "tag") (some (v3name v))
  if (getPy v (S "UnitsAbbreviation")).truthy then
    f.setCol (S "unit") (some (getPy v (S "UnitsAbbreviation")))
  else f

/-- Variant 3 of `_parse_json_variants`: requires `Timestamps` and `Values`
keys with a list-valued `Timestamps`; `pd.DataFrame` raises (`none`) on
unequal-length arrays or a dict-valued `Values`, and broadcasts a scalar
`Values`.  When the keys are missing or `Timestamps` is not a list, the
function falls through to `return pd.DataFrame()`. -/
def variant3 (v : JVal) : Option PFrame :=
  match v.get (S "Timestamps"), v.get (S "Values") with
  | some tsv, some vsv =>
      match tsv with
      | .arr ts =>
          match vsv with
          | .arr vs =>
              if ts.length = vs.length then some (v3frame ts vs v) else none
          | .obj _ => none
          | w => some (v3frame ts (List.replicate ts.length w) v)
      | _ => some PFrame.emptyF
  | _, _ => some PFrame.emptyF

/-- Variant 2 of `_parse_json_variants` (flat `Items`), falling through to
variant 3 when the canonical columns are absent. -/
def variant2 (v : JVal) (items : List JVal) : Option PFrame :=
  match items.head? with
  | some (.obj _) =>
      if !allObjs items then none
      else
        let f := rename_common_keys (pdFrameOfDicts items)
        let keep := [S "timestamp", S "value", S "tag", S "stat", S "unit"].filter
          (· ∈ f.cols)
        if keep.contains (S "timestamp") && keep.contains (S "value") then
          some (f.select keep)
        else variant3 v
  | _ => variant3 v

/-- Contiguous-substring test (Python `needle in haystack` on strings). -/
def strInfixOf (p s : Str) : Bool :=
  (List.range (s.length + 1)).any (fun i => (s.drop i).take p.length = p)

/-- Body of `_parse_json_variants` when the top level is an object with a
list-valued `Items`: try variant 1, then fall through to variants 2 and 3.
`none` models an exception escaping to `_parse_pi_response_to_df`'s
`except` clause. -/
def jsonItemsBranch (v : JVal) (items : List JVal) : Option PFrame :=
  let guard1 :=
    match items.head? with
    | some (.obj fs) => (fs.map (·.1)).contains (S "Items")
    | _ => false
  if !items.isEmpty && guard1 then
    match seriesFramesAcc items with
    | .error _ => none
    | .ok frames =>
        if !frames.isEmpty then some (concatFrames frames)
        else if !items.isEmpty then variant2 v items else variant3 v
  else if !items.isEmpty then variant2 v items
  else variant3 v

/-- Model of `_parse_json_variants`.  `none` models an exception raised
inside it (caught by the caller and degraded to the CSV fallback); for a
non-dict, non-list, non-string top level, Python's `in` raises `TypeError`,
and for list or string top levels it raises exactly when both marker keys
occur. -/
def parse_json_variants (v : JVal) : Option PFrame :=
  match v with
  | .obj _ =>
      match v.get (S "Items") with
      | some (.arr items) => jsonItemsBranch v items
      | _ => variant3 v
  | .arr xs =>
      if xs.any (fun x => match x with | .str s => s = S "Timestamps" | _ => false)
          && xs.any (fun x => match x with | .str s => s = S "Values" | _ => false)
        then none
      else some PFrame.emptyF
  | .str s =>
      if strInfixOf (S "Timestamps") s && strInfixOf (S "Values") s then none
      else some PFrame.emptyF
  | _ => none

/-- Model of `pd.to_datetime(·, errors='coerce')` on one cell.  Vendor
timestamp parsing is abstracted: integral epoch numbers parse to
themselves, everything else coerces to `NaT` (the claims below never
depend on which concrete timestamp texts parse). -/
def toDatetimeCell (c : Cell) : Cell :=
  match c with
  | some (.num q) => if q.den = 1 then some (.num q) else none
  | _ => none

/-- Model of `pd.to_numeric(·, errors='coerce')` on one cell (numeric
string parsing is abstracted to coercion failure). -/
def toNumericCell (c : Cell) : Cell :=
  match c with
  | some (.num q) => some (.num q)
  | some (.bool b) => some (.num (if b then 1 else 0))
  | _ => none

/-- Model of `.astype(str)` on one cell (a deterministic string
rendering). -/
def astypeStrCell (c : Cell) : Cell :=
  match c with
  | none => some (.str (S "nan"))
  | some v => some (.str (renderJ v))

/-- Last column of `t` whose lower-cased label is `lc`: the lookup in
`cols = {c.lower(): c for c in df_csv.columns}` (a later duplicate
overwrites an earlier one). -/
def csvColFor (cols : List Str) (lc : Str) : Option Str :=
  (cols.filter (fun c => strLower c = lc)).getLast?

/-- Python `a or b` over optional column names (an empty name is falsy). -/
def orName (a b : Option Str) : Option Str :=
  match a with
  | some s => if s.isEmpty then b else some s
  | none => b

/-- Python truthiness of an optional column name. -/
def truthyName (a : Option Str) : Bool :=
  match a with
  | some s => !s.isEmpty
  | none => false

/-- The CSV fallback branch of `_parse_pi_response_to_df`, applied to the
table returned by `pd.read_csv`: infer the timestamp/value/tag/unit
columns by case-insensitive synonym match, build the output frame only
when both a timestamp-like and a value-like column were found, coerce, and
drop rows with unparsable timestamps.  Returns `pd.DataFrame()` when the
required columns are missing (the branch then falls through to
`return pd.DataFrame()`). -/
def csv_branch (t : PFrame) : PFrame :=
  let ts_col := orName (csvColFor t.cols (S "timestamp"))
    (orName (csvColFor t.cols (S "time")) (csvColFor t.cols (S "datetime")))
  let val_col := orName (csvColFor t.cols (S "value")) (csvColFor t.cols (S "values"))
  let tag_col := orName (csvColFor t.cols (S "tag"))
    (orName (csvColFor t.cols (S "name")) (csvColFor t.cols (S "point")))
  let unit_col := orName (csvColFor t.cols (S "unit"))
    (orName (csvColFor t.cols (S "units")) (csvColFor t.cols (S "unitsabbreviation")))
  if truthyName ts_col && truthyName val_col then
    let cols := [S "timestamp", S "value"] ++
      (if truthyName tag_col then [S "tag"] else []) ++
      (if truthyName unit_col then [S "unit"] else [])
    let rows := t.data.map (fun row =>
      [(S "timestamp", toDatetimeCell (cellOf row (ts_col.getD []))),
       (S "value", toNumericCell (cellOf row (val_col.getD [])))] ++
      (if truthyName tag_col then
        [(S "tag", astypeStrCell (cellOf row (tag_col.getD [])))] else []) ++
      (if truthyName unit_col then
        [(S "unit", astypeStrCell (cellOf row (unit_col.getD [])))] else []))
    { cols := cols
      data := rows.filter (fun r => (cellOf r (S "timestamp")).isSome) }
  else PFrame.emptyF

/-- Input of the response normalizer, a raw payload text represented by
the outcomes of the two library parsers applied to it: `jsonLoads` is
`json.loads(text)` (`none` when it raises) and `readCsv` is
`pd.read_csv(io.StringIO(text))` (`none` when it raises). -/
structure RawInput where
  jsonLoads : Option JVal
  readCsv : Option PFrame

/-- The CSV side of `_parse_pi_response_to_df` (reached when the JSON side
raised or produced an empty frame). -/
def csv_part (inp : RawInput) : PFrame :=
  match inp.readCsv with
  | some t => csv_branch t
  | none => PFrame.emptyF

/-- Model of `_parse_pi_response_to_df`: JSON first (an exception anywhere
in the JSON attempt is caught), CSV fallback, empty frame otherwise.  The
function is total — the no-raise half of the parse contract is expressed
by its type. -/
def parse_pi_response_to_df (inp : RawInput) : PFrame :=
  match inp.jsonLoads with
  | some obj =>
      match parse_json_variants obj with
      | some df => if !df.isEmptyF then df else csv_part inp
      | none => csv_part inp
  | none => csv_part inp

/-! ## `Graphs.py` — `fetch_to_dataframe` -/

/-- Failure outcomes of `fetch_to_dataframe` (both raised as `ValueError`,
the spec's `ValidationError`). -/
inductive FetchErr where
  | httpError (status : Nat) : FetchErr
  | emptyParse : FetchErr
deriving DecidableEq, Repr

/-- Step of `fetch_to_dataframe` attaching a `stat` column when the parse
produced none: a single requested dataset stamps every row with it; more
than one leaves the column `pd.NA` (`none` cells); zero requested datasets
add no column.  (`params.datasets or []` is Python truthiness.) -/
def statAttachF (df : PFrame) (params : APIParams) : PFrame :=
  if (S "stat") ∉ df.cols then
    let ds := params.datasets.getD []
    if ds.length = 1 then df.setCol (S "stat") (some (.str (ds.headD [])))
    else if 1 < ds.length then df.setCol (S "stat") none
    else df
  else df

/-- Sort key used by `sort_values('timestamp')` after coercion (converted
timestamps are numeric cells). -/
def tsKeyQ (r : PRow) : ℚ :=
  match cellOf r (S "timestamp") with
  | some (.num q) => q
  | _ => 0

/-- Row order by timestamp (the relation passed to the modelling sort for
`sort_values('timestamp')`; the claims do not depend on tie order). -/
def tsRowLe (a b : PRow) : Prop := tsKeyQ a ≤ tsKeyQ b

instance : DecidableRel tsRowLe := fun a b => by
  unfold tsRowLe; infer_instance

/-- Step of `fetch_to_dataframe` normalizing the `timestamp` column:
`pd.to_datetime(errors='coerce')`, `dropna(subset=['timestamp'])`,
`sort_values('timestamp')`. -/
def tsNormalizeF (df : PFrame) : PFrame :=
  if (S "timestamp") ∈ df.cols then
    let converted := df.data.map (fun row =>
      row.map (fun kv =>
        if kv.1 = S "timestamp" then (kv.1, toDatetimeCell kv.2) else kv))
    let kept := converted.filter (fun r => (cellOf r (S "timestamp")).isSome)
    { cols := df.cols, data := kept.insertionSort tsRowLe }
  else df

/-- Step of `fetch_to_dataframe` attaching a `unit` column from
`params.output_unit` when none resulted (truthiness of the attribute). -/
def unitAttachF (df : PFrame) (params : APIParams) : PFrame :=
  if (S "unit") ∉ df.cols ∧ !params.output_unit.isEmpty then
    df.setCol (S "unit") (some (.str params.output_unit))
  else df

/-- Step of `fetch_to_dataframe` normalizing the column order:
`timestamp, tag, stat, value, unit` first (those present), remaining
columns after. -/
def reorderColsF (df : PFrame) : PFrame :=
  let ordered := [S "timestamp", S "tag", S "stat", S "value", S "unit"].filter
    (· ∈ df.cols)
  df.select (ordered ++ df.cols.filter (· ∉ ordered))

/-- Model of `fetch_to_dataframe`: `execute_query`'s result is passed in as
`status` (its HTTP status) and `inp` (its body text, represented as in
`RawInput`); `ValueError` on non-200 or on an empty parse result, then the
stat/timestamp/unit/column-order post-steps. -/
def fetch_to_dataframe (status : Nat) (inp : RawInput) (params : APIParams) :
    Except FetchErr PFrame :=
  if status ≠ 200 then .error (.httpError status)
  else
    let df := parse_pi_response_to_df inp
    if df.isEmptyF then .error .emptyParse
    else .ok (reorderColsF (unitAttachF (tsNormalizeF (statAttachF df params)) params))

/-! ## `Graphs.py` — `resample_timeseries` -/

/-- One row of an already-normalized (tidy) time-series frame, the input
shape of `resample_timeseries`: a parsed timestamp (epoch seconds), the
label columns, and a numeric-or-missing value. -/
structure TRow where
  ts : Int
  tag : Option Str := none
  stat : Option Str := none
  value : Option ℚ := none
  unit : Option Str := none
deriving DecidableEq, Repr

/-- Tidy frame: which of the five canonical columns are present, plus the
rows. -/
structure TFrame where
  hasTs : Bool := true
  hasVal : Bool := true
  hasTag : Bool := false
  hasStat : Bool := false
  hasUnit : Bool := false
  data : List TRow := []
deriving DecidableEq, Repr

/-- Membership test `k in df.columns` for a tidy frame. -/
def TFrame.colPresent (df : TFrame) (k : Str) : Bool :=
  if k = S "timestamp" then df.hasTs
  else if k = S "value" then df.hasVal
  else if k = S "tag" then df.hasTag
  else if k = S "stat" then df.hasStat
  else if k = S "unit" then df.hasUnit
  else false

/-- Label-column accessor of a tidy row (group keys are label columns; the
source's default is `('tag', 'stat')`). -/
def TRow.field (r : TRow) (k : Str) : Option Str :=
  if k = S "tag" then r.tag
  else if k = S "stat" then r.stat
  else if k = S "unit" then r.unit
  else none

/-- Group key of a row under `df.groupby(gkeys)`: `none` when any key cell
is missing (`groupby` drops such rows — its `dropna=True` default). -/
def rowKey (gkeys : List Str) (r : TRow) : Option (List Str) :=
  gkeys.mapM r.field

/-- Lexicographic order on group-key tuples (the order `groupby`'s
`sort=True` lists groups in). -/
def keysLe : List Str → List Str → Bool
  | [], _ => true
  | _ :: _, [] => false
  | a :: as, b :: bs => if a = b then keysLe as bs else strLtB a b

/-- Proposition wrapper for `keysLe` (relation for the modelling sort). -/
def keysLeP (a b : List Str) : Prop := keysLe a b = true

instance : DecidableRel keysLeP := fun a b => by
  unfold keysLeP; infer_instance

/-- Distinct group keys of `df.groupby(gkeys)` in its `sort=True` order. -/
def groupsOf (gkeys : List Str) (rows : List TRow) : List (List Str) :=
  ((rows.filterMap (rowKey gkeys)).dedup).insertionSort keysLeP

/-- Row order by timestamp for tidy rows (`sort_values('timestamp')` /
`set_index('timestamp')` ordering). -/
def rowTsLe (a b : TRow) : Prop := a.ts ≤ b.ts

instance : DecidableRel rowTsLe := fun a b => by
  unfold rowTsLe; infer_instance

/-- Window reduction of `Series.resample(...).agg`: pandas skips missing
values inside a window; `sum` of an empty/all-missing window is `0`,
`mean`/`min`/`max` of one is missing; any `how` other than
`sum`/`min`/`max` falls into the `mean` arm (the source's `else`). -/
def aggOf (how : Str) (ws : List ℚ) : Option ℚ :=
  if how = S "sum" then some ws.sum
  else if how = S "min" then ws.min?
  else if how = S "max" then ws.max?
  else match ws with
    | [] => none
    | _ => some (ws.sum / ws.length)

/-- Model of `sub['value'].resample(interval).agg(how)` followed by
`reset_index()`: fixed-width windows of `d` seconds, aligned to the epoch
(pandas' `origin='start_day'` coincides with epoch alignment for the
day-dividing offset aliases such as `5min` or `1H`; the alias is
abstracted to its width in seconds), covering the span from the window of
the earliest row to the window of the latest; one output pair per window,
empty windows included. -/
def resampleSeries (rows : List TRow) (d : Nat) (how : Str) :
    List (Int × Option ℚ) :=
  match (rows.map (·.ts)).min?, (rows.map (·.ts)).max? with
  | some tmin, some tmax =>
      let b0 := (Int.fdiv tmin d) * d
      let bN := (Int.fdiv tmax d) * d
      let nbins := (bN - b0).toNat / d + 1
      (List.range nbins).map (fun i =>
        let b := b0 + (d : Int) * i
        let ws := (rows.filter (fun r =>
          decide (b ≤ r.ts) && decide (r.ts < b + d))).filterMap (·.value)
        (b, aggOf how ws))
  | _, _ => []

/-- Column assignment `r[k] = v` on one tidy output row. -/
def setField (k : Str) (v : Str) (r : TRow) : TRow :=
  if k = S "tag" then { r with tag := some v }
  else if k = S "stat" then { r with stat := some v }
  else if k = S "unit" then { r with unit := some v }
  else r

/-- Restoration of the group-key columns on an output row
(`r[k] = v` for each group key, covering both the tuple-key and the
scalar-key branch of the source). -/
def restoreKeys (gk : List Str) (kvals : List Str) (r : TRow) : TRow :=
  (gk.zip kvals).foldl (fun r kv => setField kv.1 kv.2 r) r

/-- Model of `resample_timeseries`: a frame without both `timestamp` and
`value` columns, or an empty one, is returned unchanged; otherwise rows
are grouped by the group keys present (rows with a missing key cell are
dropped by `groupby`), each group is sorted by timestamp, resampled and
re-stamped with its key, and the concatenation is re-sorted by timestamp.
The output frame keeps `timestamp`, `value` and the used group-key
columns (a `unit` column does not survive).  `pd.concat` over zero group
frames raises in pandas; the model returns the empty concatenation (no
claim depends on that corner). -/
def resample_timeseries (df : TFrame) (d : Nat) (how : Str)
    (group_keys : List Str) : TFrame :=
  if !(df.colPresent (S "timestamp")) || !(df.colPresent (S "value")) then df
  else if df.data.isEmpty then df
  else
    let gk := group_keys.filter (fun k => df.colPresent k)
    if !gk.isEmpty then
      let keys := groupsOf gk df.data
      let blocks := keys.map (fun g =>
        let sub := (df.data.filter (fun r => rowKey gk r = some g)).insertionSort
          rowTsLe
        (resampleSeries sub d how).map (fun bv =>
          restoreKeys gk g { ts := bv.1, value := bv.2 }))
      { hasTs := true, hasVal := true
        hasTag := (S "tag") ∈ gk, hasStat := (S "stat") ∈ gk, hasUnit := false
        data := blocks.flatten.insertionSort rowTsLe }
    else
      { hasTs := true, hasVal := true, hasTag := false, hasStat := false
        hasUnit := false
        data := (resampleSeries (df.data.insertionSort rowTsLe) d how).map
          (fun bv => { ts := bv.1, value := bv.2 }) }

/-! ## Specification-side definitions for the resample claim (C3) -/

/-- Partition of the rows carrying group key `g` (spec wording: "partitions
rows by the group-by fields present"). -/
def spec_partition (gk : List Str) (g : List Str) (rows : List TRow) :
    List TRow :=
  rows.filter (fun r => rowKey gk r = some g)

/-- Window starts covering a partition's observed span: the fixed-width
windows of the target interval touched between the earliest and latest
row. -/
def spec_windows (d : Nat) (rows : List TRow) : List Int :=
  match (rows.map (·.ts)).min?, (rows.map (·.ts)).max? with
  | some tmin, some tmax =>
      let b0 := (Int.fdiv tmin d) * d
      let bN := (Int.fdiv tmax d) * d
      (List.range ((bN - b0).toNat / d + 1)).map (fun i => b0 + (d : Int) * i)
  | _, _ => []

/-- Rows of a partition falling in the window starting at `b`. -/
def spec_window_rows (d : Nat) (b : Int) (rows : List TRow) : List TRow :=
  rows.filter (fun r => decide (b ≤ r.ts) && decide (r.ts < b + d))

/-- Group-by fields actually present in a tidy frame (the source's default
`('tag', 'stat')` filtered to the columns of `df`). -/
def usedGroupKeys (df : TFrame) : List Str :=
  [S "tag", S "stat"].filter (fun k => df.colPresent k)

/-! ## Auxiliary predicates and concrete evaluation inputs -/

/-- Lower-case hexadecimal character test. -/
def isHexCp (c : Nat) : Bool := (48 ≤ c && c ≤ 57) || (97 ≤ c && c ≤ 102)

/-- Well-formedness of a frame: every row's label sequence is exactly the
column list (all frames built by the normalizer satisfy it). -/
def WF (f : PFrame) : Prop := ∀ row ∈ f.data, row.map Prod.fst = f.cols

/-- Concrete variant-3 payload used to evaluate the parse theorems. -/
def objW : JVal := .obj
  [ (S "Timestamps", .arr [.num 100, .num 200])
  , (S "Values", .arr [.num (5/2), .num 6])
  , (S "Name", .str (S "tagA")) ]

/-- Concrete raw input whose JSON side is `objW`. -/
def inpW : RawInput := ⟨some objW, none⟩

/-- Concrete parameters requesting exactly one dataset. -/
def paramsW : APIParams := { datasets := some [S "Average"] }

/-- Concrete fetch outcome for `inpW`/`paramsW`. -/
def fetchW : Except FetchErr PFrame := fetch_to_dataframe 200 inpW paramsW

/-- The frame inside `fetchW` (empty frame on error, not reached). -/
def dfW : PFrame :=
  match fetchW with
  | .ok f => f
  | .error _ => PFrame.emptyF

/-- Concrete parameters requesting two datasets. -/
def paramsW2 : APIParams := { datasets := some [S "Minimum", S "Maximum"] }

/-- Concrete fetch outcome for `inpW`/`paramsW2`. -/
def fetchW2 : Except FetchErr PFrame := fetch_to_dataframe 200 inpW paramsW2

/-- The frame inside `fetchW2`. -/
def dfW2 : PFrame :=
  match fetchW2 with
  | .ok f => f
  | .error _ => PFrame.emptyF

/-- Concrete tidy frame with a one-window gap (rows at 0 s and 7200 s,
nothing in the 3600 s window), used against the resample claim. -/
def df0 : TFrame :=
  { hasTs := true, hasVal := true, hasTag := true, hasStat := false
    hasUnit := false
    data := [ { ts := 0, tag := some (S "a"), value := some 1 }
            , { ts := 7200, tag := some (S "a"), value := some 3 } ] }

/-- Concrete query-parameter dictionary (one insertion order). -/
def dW1 : List (Str × JVal) :=
  [ (S "start_date", .str (S "2025-06-01")), (S "datasets", .arr [.str (S "Average")]) ]

/-- The same dictionary in the opposite insertion order. -/
def dW2 : List (Str × JVal) :=
  [ (S "datasets", .arr [.str (S "Average")]), (S "start_date", .str (S "2025-06-01")) ]

/-- Concrete provider candidate set with one case-insensitively matching
candidate. -/
def candsW : List Candidate := [{ name := some (S "fOo"), webId := some (S "W1") }]

/-- Concrete parameter model whose string fields are all empty or
whitespace-only and whose flags are all false. -/
def pW0 : APIParams :=
  { substation := S " ", line := [], transformer := [], bus := [], feeder := []
    start_date := [], end_date := [], interval_value := [], interval_unit := []
    datasets := none, output_unit := []
    coincidental_peaks := false, multi_phase := false
    multi_phase_average := false }

/-! ## Helper lemmas -/

theorem find?_eq_head_filter {α} (p : α → Bool) (l : List α) :
    l.find? p = (l.filter p).head? := by
  induction l with
  | nil => rfl
  | cons a t ih =>
      cases hpa : p a
      · rw [List.find?_cons_of_neg _ (by simp [hpa]), List.filter_cons_of_neg (by simp [hpa]), ih]
      · rw [List.find?_cons_of_pos _ hpa, List.filter_cons_of_pos hpa, List.head?_cons]

/-! ## C8 — interval magnitude coercion -/

/-- C8: for every input interval string, the constructed parameter model's
interval magnitude is a non-negative integer string (non-empty, all ASCII
digits), and any input whose stripped form is not solely digits is coerced
to the string `"0"`. -/
theorem build_api_params_interval_invariant
    (sub li tr bu fe sd ed iv iu : Str) (ds : List Str) (ou : Str)
    (cp mp mpa : Bool) :
    strIsdigit (build_api_params sub li tr bu fe sd ed iv iu ds ou
        cp mp mpa).interval_value = true ∧
    (strIsdigit (strStrip iv) = false →
      (build_api_params sub li tr bu fe sd ed iv iu ds ou
        cp mp mpa).interval_value = S "0") := by
  unfold build_api_params
  by_cases h : strIsdigit (strStrip iv) = true
  · simp [h]
  · simp only [Bool.not_eq_true] at h
    refine ⟨?_, fun _ => by simp [h]⟩
    simp [h]
    decide

/-- Witness for C8 at the input `" 12a "` (stripped form not all digits,
coerced to `"0"`). -/
theorem build_api_params_interval_invariant_witness :
    strIsdigit (build_api_params [] [] [] [] [] [] [] (S " 12a ") (S "minute")
        [] (S "Amp") false false false).interval_value = true ∧
    (build_api_params [] [] [] [] [] [] [] (S " 12a ") (S "minute")
        [] (S "Amp") false false false).interval_value = S "0" := by
  have h := build_api_params_interval_invariant [] [] [] [] [] [] [] (S " 12a ")
    (S "minute") [] (S "Amp") false false false
  exact ⟨h.1, h.2 (by decide)⟩

/-! ## C2 — tag resolution algorithm -/

/-- C2: resolution queries the provider's point-listing endpoint with a
name filter equal to the tag; from the returned candidate set it selects
the (first) case-insensitive exact name match if one exists, otherwise the
first candidate in provider order, and returns that candidate's identifier;
it fails with a not-found error exactly when the candidate set is empty or
the selected candidate carries no usable identifier — `get_point_webid`
coincides with `spec_resolve`, the algorithm transcribed from the spec's
words. -/
theorem get_point_webid_refines_spec (provider : Str → List Candidate)
    (tag : Str) :
    get_point_webid provider tag = spec_resolve provider tag := by
  unfold get_point_webid spec_resolve
  cases hitems : provider tag with
  | nil => simp
  | cons c rest =>
      dsimp only
      rw [find?_eq_head_filter]
      cases hf : (c :: rest).filter
          (fun it => decide (strLower (it.name.getD []) = strLower tag)) with
      | nil => simp [hf]
      | cons d ds => simp [hf]

/-! ## C1 — the normalizer never raises and degrades to empty -/

/-- C1: the parse operation is a total function (no exception escapes — all
fallible steps are modelled inside `Option`/`Except` and caught exactly
where the source catches them), and whenever neither the JSON variants nor
the CSV fallback yield a usable row, it returns the empty row collection. -/
theorem parse_pi_response_empty_on_unrecognized (inp : RawInput)
    (hjson : ∀ o df, inp.jsonLoads = some o → parse_json_variants o = some df →
      df.data = [])
    (hcsv : ∀ t, inp.readCsv = some t → (csv_branch t).data = []) :
    (parse_pi_response_to_df inp).data = [] := by
  have hcsvpart : (csv_part inp).data = [] := by
    unfold csv_part
    cases hc : inp.readCsv with
    | none => rfl
    | some t => exact hcsv t hc
  unfold parse_pi_response_to_df
  cases hj : inp.jsonLoads with
  | none => simpa using hcsvpart
  | some o =>
      cases hp : parse_json_variants o with
      | none => simpa [hp] using hcsvpart
      | some df =>
          have hemp : df.isEmptyF = true := by
            simp [PFrame.isEmptyF, hjson o df hj hp]
          simpa [hp, hemp] using hcsvpart

/-- Witness for C1 at a payload that neither parses as JSON nor as CSV. -/
theorem parse_pi_response_empty_on_unrecognized_witness :
    (parse_pi_response_to_df ⟨none, none⟩).data = [] :=
  parse_pi_response_empty_on_unrecognized ⟨none, none⟩
    (fun _ _ h _ => nomatch h) (fun _ h => nomatch h)

/-! ## C7 — validation boundaries -/

/-- C7: a query submission whose start date is strictly after its end date
is rejected by `run_query` with the range-error dialog, before any network
call is attempted (the outcome is not `executedQuery`); and a fetched
response whose parse result has zero rows makes `fetch_to_dataframe` raise
the empty-parse `ValueError` instead of returning an empty frame. -/
theorem query_validation_boundaries :
    (∀ (startStr endStr sub li tr bu fe : Str) (dmin davg dmax : Bool)
        (ivv ivu ou : Str) (cp mp ma : Bool) (sd ed : PyDate),
      parse_iso startStr = some sd → parse_iso endStr = some ed →
      PyDate.lt ed sd →
      run_query startStr endStr sub li tr bu fe dmin davg dmax ivv ivu ou
        cp mp ma = .invalidRangeDialog) ∧
    (∀ (inp : RawInput) (params : APIParams),
      (parse_pi_response_to_df inp).data = [] →
      fetch_to_dataframe 200 inp params = .error .emptyParse) := by
  constructor
  · intro startStr endStr sub li tr bu fe dmin davg dmax ivv ivu ou cp mp ma
      sd ed hs he hlt
    unfold run_query
    rw [hs, he]
    simp [hlt]
  · intro inp params h
    unfold fetch_to_dataframe
    simp [PFrame.isEmptyF, h]

/-- Witness for C7: the range `2025-06-02 … 2025-06-01` is rejected, and an
unparsable payload fails the fetch with the empty-parse error. -/
theorem query_validation_boundaries_witness :
    run_query (S "2025-06-02") (S "2025-06-01") [] [] [] [] [] false false true
      (S "15") (S "minute") (S "Amp") false false false = .invalidRangeDialog ∧
    fetch_to_dataframe 200 ⟨none, none⟩ {} = .error .emptyParse := by
  constructor
  · exact query_validation_boundaries.1 _ _ _ _ _ _ _ _ _ _ _ _ _ _ _ _
      ⟨2025, 6, 2⟩ ⟨2025, 6, 1⟩ (by decide) (by decide) (by decide)
  · exact query_validation_boundaries.2 ⟨none, none⟩ {} (by rfl)

/-! ## C4 — case-sensitive cache, case-insensitive matching -/

theorem cpLower_cpUpper (c : Nat) : cpLower (cpUpper c) = cpLower c := by
  unfold cpLower cpUpper
  split_ifs <;> omega

theorem cpLower_cpLower (c : Nat) : cpLower (cpLower c) = cpLower c := by
  unfold cpLower
  split_ifs <;> omega

theorem strLower_strUpper (s : Str) : strLower (strUpper s) = strLower s := by
  unfold strLower strUpper
  rw [List.map_map]
  exact List.map_congr_left (fun c _ => cpLower_cpUpper c)

theorem strLower_strLower (s : Str) : strLower (strLower s) = strLower s := by
  unfold strLower
  rw [List.map_map]
  exact List.map_congr_left (fun c _ => cpLower_cpLower c)

theorem get_point_webid_ok (items : List Candidate) (t q : Str) (w : Str)
    (hq : strLower q = strLower t)
    (hmatch : ∃ c ∈ items, strLower (c.name.getD []) = strLower t)
    (hw : ((items.filter
      (fun c => strLower (c.name.getD []) = strLower t)).headD {}).webId = some w)
    (hwne : w ≠ []) :
    get_point_webid (fun _ => items) q = .ok w := by
  unfold get_point_webid
  dsimp only
  obtain ⟨c, hc, hcl⟩ := hmatch
  have hfeq : items.filter (fun it => decide (strLower (it.name.getD []) = strLower q)) =
      items.filter (fun it => decide (strLower (it.name.getD []) = strLower t)) :=
    List.filter_congr (fun x _ => by rw [hq])
  have hne : items.isEmpty = false := by
    cases items with
    | nil => cases hc
    | cons a l => rfl
  have hmem : c ∈ items.filter
      (fun it => decide (strLower (it.name.getD []) = strLower t)) :=
    List.mem_filter.mpr ⟨hc, by simp [hcl]⟩
  have hfne : (items.filter
      (fun it => decide (strLower (it.name.getD []) = strLower t))).isEmpty = false := by
    cases hl : items.filter (fun it => decide (strLower (it.name.getD []) = strLower t)) with
    | nil => rw [hl] at hmem; cases hmem
    | cons a l => rfl
  rw [hne, hfeq, hfne]
  simp only [Bool.false_eq_true, if_false, Bool.not_false, if_true]
  rw [hw]
  simp [hwne]

/-- C4: for a fixed provider candidate set containing an exact
case-insensitive match whose selected candidate carries a usable
identifier, resolving the upper-cased and the lower-cased form of a tag
each populates the cache under its own exact (case-sensitive) key and each
returns the same opaque identifier; when the two forms differ, the second
resolution is not served by the first's cache entry. -/
theorem resolve_case_insensitive_cached (items : List Candidate) (t : Str)
    (hmatch : ∃ c ∈ items, strLower (c.name.getD []) = strLower t)
    (husable : ∃ w, ((items.filter
      (fun c => strLower (c.name.getD []) = strLower t)).headD {}).webId = some w ∧
      w ≠ []) :
    ∃ w cache2,
      get_point_webid_cached (fun _ => items) [] (strUpper t) =
        .ok (w, [(strUpper t, w)]) ∧
      get_point_webid_cached (fun _ => items) [(strUpper t, w)] (strLower t) =
        .ok (w, cache2) ∧
      cache2.lookup (strLower t) = some w ∧
      cache2.lookup (strUpper t) = some w ∧
      (strUpper t ≠ strLower t → ([(strUpper t, w)] : List (Str × Str)).lookup
        (strLower t) = none) := by
  obtain ⟨w, hw, hwne⟩ := husable
  have hU := get_point_webid_ok items t (strUpper t) w (strLower_strUpper t)
    hmatch hw hwne
  have hL := get_point_webid_ok items t (strLower t) w (strLower_strLower t)
    hmatch hw hwne
  by_cases hUL : strUpper t = strLower t
  · refine ⟨w, [(strUpper t, w)], ?_, ?_, ?_, ?_, fun h => absurd hUL h⟩
    · unfold get_point_webid_cached
      simp [hU]
    · unfold get_point_webid_cached
      rw [← hUL]
      simp [List.lookup]
    · rw [← hUL]; simp [List.lookup]
    · simp [List.lookup]
  · have hbeq : (strLower t == strUpper t) = false := by
      simp only [beq_eq_false_iff_ne, ne_eq]
      exact fun h => hUL h.symm
    refine ⟨w, [(strLower t, w), (strUpper t, w)], ?_, ?_, ?_, ?_, fun _ => ?_⟩
    · unfold get_point_webid_cached
      simp [hU]
    · unfold get_point_webid_cached
      simp [List.lookup, hbeq, hL]
    · simp [List.lookup]
    · simp only [List.lookup]
      cases strUpper t == strLower t
      · simp
      · rfl
    · simp [List.lookup, hbeq]

/-- Witness for C4: tag `"Foo"`, one candidate named `"fOo"` with
identifier `"W1"`; `"FOO"` and `"foo"` resolve independently to `"W1"`. -/
theorem resolve_case_insensitive_cached_witness :
    ∃ w cache2,
      get_point_webid_cached (fun _ => candsW) [] (strUpper (S "Foo")) =
        .ok (w, [(strUpper (S "Foo"), w)]) ∧
      get_point_webid_cached (fun _ => candsW) [(strUpper (S "Foo"), w)]
        (strLower (S "Foo")) = .ok (w, cache2) ∧
      cache2.lookup (strLower (S "Foo")) = some w ∧
      cache2.lookup (strUpper (S "Foo")) = some w ∧
      (strUpper (S "Foo") ≠ strLower (S "Foo") →
        ([(strUpper (S "Foo"), w)] : List (Str × Str)).lookup
          (strLower (S "Foo")) = none) :=
  resolve_case_insensitive_cached candsW (S "Foo") (by decide)
    ⟨S "W1", by decide, by decide⟩

/-! ## C10 — flag rendering and empty-field omission -/

theorem lookup_none_of_not_mem_keys {β : Type} (k : Str) (l : List (Str × β))
    (h : k ∉ l.map Prod.fst) : l.lookup k = none := by
  induction l with
  | nil => rfl
  | cons a t ih =>
      simp only [List.map_cons, List.mem_cons, not_or] at h
      obtain ⟨h1, h2⟩ := h
      obtain ⟨a1, a2⟩ := a
      have hb : (k == a1) = false := beq_eq_false_iff_ne.mpr h1
      simp [List.lookup, hb, ih h2]

theorem lookup_filter_eq_find (k : Str) (q : Str × Str → Bool)
    (l : List (Str × Str)) (h : (l.map Prod.fst).Nodup) :
    (l.filter q).lookup k =
      match l.find? (fun kv => k == kv.1) with
      | some kv => if q kv = true then some kv.2 else none
      | none => none := by
  induction l with
  | nil => rfl
  | cons a t ih =>
      simp only [List.map_cons, List.nodup_cons] at h
      obtain ⟨hna, hnd⟩ := h
      by_cases hk : (k == a.1) = true
      · have hkeq : k = a.1 := eq_of_beq hk
        rw [List.find?_cons_of_pos _ (by simpa using hk)]
        by_cases hq : q a = true
        · rw [List.filter_cons_of_pos hq]
          obtain ⟨a1, a2⟩ := a
          simp [List.lookup, hk, hq]
        · rw [List.filter_cons_of_neg (by simpa using hq)]
          have hnone : k ∉ (t.filter q).map Prod.fst := by
            intro hmem
            obtain ⟨kv, hkv, hfst⟩ := List.mem_map.mp hmem
            exact hna (hkeq ▸ hfst ▸ List.mem_map_of_mem Prod.fst
              (List.mem_of_mem_filter hkv))
          rw [lookup_none_of_not_mem_keys k _ hnone]
          simp [hq]
      · rw [List.find?_cons_of_neg _ (by simpa using hk)]
        by_cases hq : q a = true
        · rw [List.filter_cons_of_pos hq]
          obtain ⟨a1, a2⟩ := a
          have hb : (k == a1) = false := by simpa using hk
          simp [List.lookup, hb, ih hnd]
        · rw [List.filter_cons_of_neg (by simpa using hq)]
          exact ih hnd

/-- C10: the flattened query dictionary always maps the three boolean flag
keys to `"true"`/`"false"` (a false flag renders as the non-empty string
`"false"` and is never dropped), while every string-valued field whose
value is empty or whitespace-only is omitted. -/
theorem to_query_dict_flags_and_empties (p : APIParams) :
    ((APIParams.to_query_dict p).lookup (S "coincidental_peaks") =
      some (boolStr p.coincidental_peaks)) ∧
    ((APIParams.to_query_dict p).lookup (S "multi_phase") =
      some (boolStr p.multi_phase)) ∧
    ((APIParams.to_query_dict p).lookup (S "multi_phase_average") =
      some (boolStr p.multi_phase_average)) ∧
    ((strStrip p.substation).isEmpty = true →
      (APIParams.to_query_dict p).lookup (S "substation") = none) ∧
    ((strStrip p.line).isEmpty = true →
      (APIParams.to_query_dict p).lookup (S "line") = none) ∧
    ((strStrip p.transformer).isEmpty = true →
      (APIParams.to_query_dict p).lookup (S "transformer") = none) ∧
    ((strStrip p.bus).isEmpty = true →
      (APIParams.to_query_dict p).lookup (S "bus") = none) ∧
    ((strStrip p.feeder).isEmpty = true →
      (APIParams.to_query_dict p).lookup (S "feeder") = none) ∧
    ((strStrip p.start_date).isEmpty = true →
      (APIParams.to_query_dict p).lookup (S "start_date") = none) ∧
    ((strStrip p.end_date).isEmpty = true →
      (APIParams.to_query_dict p).lookup (S "end_date") = none) ∧
    ((strStrip p.interval_value).isEmpty = true →
      (APIParams.to_query_dict p).lookup (S "interval_value") = none) ∧
    ((strStrip p.interval_unit).isEmpty = true →
      (APIParams.to_query_dict p).lookup (S "interval_unit") = none) ∧
    ((strStrip p.output_unit).isEmpty = true →
      (APIParams.to_query_dict p).lookup (S "output_unit") = none) := by
  obtain ⟨sub, li, tr, bu, fe, sd, ed, ivv, ivu, ds, ou, cp, mp, mpa⟩ := p
  have hnd : ((queryEntries ⟨sub, li, tr, bu, fe, sd, ed, ivv, ivu, ds, ou,
      cp, mp, mpa⟩).map Prod.fst).Nodup := by
    rw [show (queryEntries ⟨sub, li, tr, bu, fe, sd, ed, ivv, ivu, ds, ou,
        cp, mp, mpa⟩).map Prod.fst =
      [ S "substation", S "line", S "transformer", S "bus", S "feeder"
      , S "start_date", S "end_date", S "interval_value", S "interval_unit"
      , S "datasets", S "output_unit", S "coincidental_peaks", S "multi_phase"
      , S "multi_phase_average" ] from rfl]
    decide
  unfold APIParams.to_query_dict
  refine ⟨?_, ?_, ?_, ?_, ?_, ?_, ?_, ?_, ?_, ?_, ?_, ?_, ?_⟩
  · rw [lookup_filter_eq_find _ _ _ hnd]
    cases cp <;> rfl
  · rw [lookup_filter_eq_find _ _ _ hnd]
    cases mp <;> rfl
  · rw [lookup_filter_eq_find _ _ _ hnd]
    cases mpa <;> rfl
  all_goals intro h
  all_goals rw [lookup_filter_eq_find _ _ _ hnd]
  · show (if (!(strStrip sub).isEmpty) = true then some sub else none) = none
    simp [h]
  · show (if (!(strStrip li).isEmpty) = true then some li else none) = none
    simp [h]
  · show (if (!(strStrip tr).isEmpty) = true then some tr else none) = none
    simp [h]
  · show (if (!(strStrip bu).isEmpty) = true then some bu else none) = none
    simp [h]
  · show (if (!(strStrip fe).isEmpty) = true then some fe else none) = none
    simp [h]
  · show (if (!(strStrip sd).isEmpty) = true then some sd else none) = none
    simp [h]
  · show (if (!(strStrip ed).isEmpty) = true then some ed else none) = none
    simp [h]
  · show (if (!(strStrip ivv).isEmpty) = true then some ivv else none) = none
    simp [h]
  · show (if (!(strStrip ivu).isEmpty) = true then some ivu else none) = none
    simp [h]
  · show (if (!(strStrip ou).isEmpty) = true then some ou else none) = none
    simp [h]

/-- Witness for C10 at `pW0` (all string fields empty or whitespace-only,
all flags false): the three flag keys are present as `"false"`, the ten
string-field keys are absent. -/
theorem to_query_dict_flags_and_empties_witness :
    ((APIParams.to_query_dict pW0).lookup (S "coincidental_peaks") =
      some (S "false")) ∧
    ((APIParams.to_query_dict pW0).lookup (S "multi_phase") = some (S "false")) ∧
    ((APIParams.to_query_dict pW0).lookup (S "multi_phase_average") =
      some (S "false")) ∧
    ((APIParams.to_query_dict pW0).lookup (S "substation") = none) ∧
    ((APIParams.to_query_dict pW0).lookup (S "line") = none) ∧
    ((APIParams.to_query_dict pW0).lookup (S "transformer") = none) ∧
    ((APIParams.to_query_dict pW0).lookup (S "bus") = none) ∧
    ((APIParams.to_query_dict pW0).lookup (S "feeder") = none) ∧
    ((APIParams.to_query_dict pW0).lookup (S "start_date") = none) ∧
    ((APIParams.to_query_dict pW0).lookup (S "end_date") = none) ∧
    ((APIParams.to_query_dict pW0).lookup (S "interval_value") = none) ∧
    ((APIParams.to_query_dict pW0).lookup (S "interval_unit") = none) ∧
    ((APIParams.to_query_dict pW0).lookup (S "output_unit") = none) := by
  obtain ⟨h1, h2, h3, h4, h5, h6, h7, h8, h9, h10, h11, h12, h13⟩ :=
    to_query_dict_flags_and_empties pW0
  exact ⟨h1, h2, h3, h4 (by decide), h5 (by decide), h6 (by decide),
    h7 (by decide), h8 (by decide), h9 (by decide), h10 (by decide),
    h11 (by decide), h12 (by decide), h13 (by decide)⟩

/-! ## C9 — deterministic cache path -/

theorem strLtB_irrefl (a : Str) : strLtB a a = false := by
  induction a with
  | nil => rfl
  | cons x xs ih => simp [strLtB, ih]

theorem strLtB_trans {a b c : Str} (h1 : strLtB a b = true)
    (h2 : strLtB b c = true) : strLtB a c = true := by
  induction a generalizing b c with
  | nil =>
      cases c with
      | nil =>
          cases b with
          | nil => exact absurd h1 (by simp [strLtB])
          | cons y ys => exact absurd h2 (by simp [strLtB])
      | cons z zs => simp [strLtB]
  | cons x xs ih =>
      cases b with
      | nil => exact absurd h1 (by simp [strLtB])
      | cons y ys =>
          cases c with
          | nil => exact absurd h2 (by simp [strLtB])
          | cons z zs =>
              simp only [strLtB] at h1 h2 ⊢
              by_cases hxy : x = y
              · subst hxy
                simp only [if_pos rfl] at h1
                by_cases hyz : x = z
                · subst hyz
                  simp only [if_pos rfl] at h2 ⊢
                  exact ih h1 h2
                · simp only [if_neg hyz] at h2 ⊢
                  exact h2
              · simp only [if_neg hxy] at h1
                by_cases hyz : y = z
                · subst hyz
                  simp only [if_neg hxy]
                  exact h1
                · simp only [if_neg hyz] at h2
                  have hxz : x < z := by
                    have := of_decide_eq_true h1
                    have := of_decide_eq_true h2
                    omega
                  have hxz' : x ≠ z := Nat.ne_of_lt hxz
                  simp [if_neg hxz', hxz]

theorem strLtB_connex (a b : Str) :
    strLtB a b = true ∨ a = b ∨ strLtB b a = true := by
  induction a generalizing b with
  | nil =>
      cases b with
      | nil => exact Or.inr (Or.inl rfl)
      | cons y ys => exact Or.inl (by simp [strLtB])
  | cons x xs ih =>
      cases b with
      | nil => exact Or.inr (Or.inr (by simp [strLtB]))
      | cons y ys =>
          by_cases hxy : x = y
          · subst hxy
            rcases ih ys with h | h | h
            · exact Or.inl (by simp [strLtB, h])
            · exact Or.inr (Or.inl (by rw [h]))
            · exact Or.inr (Or.inr (by simp [strLtB, h]))
          · rcases Nat.lt_or_ge x y with h | h
            · exact Or.inl (by simp [strLtB, hxy, h])
            · have hyx : y < x := by omega
              have hyx' : y ≠ x := by omega
              exact Or.inr (Or.inr (by simp [strLtB, hyx', hyx]))

theorem strLtB_asymm {a b : Str} (h1 : strLtB a b = true) :
    strLtB b a = false := by
  cases hba : strLtB b a
  · rfl
  · have := strLtB_trans h1 hba
    rw [strLtB_irrefl] at this
    cases this

theorem strLeB_refl (a : Str) : strLeB a a = true := by
  simp [strLeB]

theorem strLeB_total (a b : Str) : strLeB a b = true ∨ strLeB b a = true := by
  rcases strLtB_connex a b with h | h | h
  · exact Or.inl (by simp [strLeB, h])
  · exact Or.inl (by simp [strLeB, h])
  · exact Or.inr (by simp [strLeB, h])

theorem strLeB_trans {a b c : Str} (h1 : strLeB a b = true)
    (h2 : strLeB b c = true) : strLeB a c = true := by
  simp only [strLeB, Bool.or_eq_true, decide_eq_true_eq] at h1 h2 ⊢
  rcases h1 with h1 | h1
  · rcases h2 with h2 | h2
    · exact Or.inl (strLtB_trans h1 h2)
    · subst h2; exact Or.inl h1
  · subst h1
    exact h2

theorem strLeB_antisymm {a b : Str} (h1 : strLeB a b = true)
    (h2 : strLeB b a = true) : a = b := by
  simp only [strLeB, Bool.or_eq_true, decide_eq_true_eq] at h1 h2
  rcases h1 with h1 | h1
  · rcases h2 with h2 | h2
    · rw [strLtB_asymm h1] at h2; cases h2
    · exact h2.symm
  · exact h1

instance : IsTotal (Str × JVal) keyLe :=
  ⟨fun a b => strLeB_total a.1 b.1⟩

instance : IsTrans (Str × JVal) keyLe :=
  ⟨fun _ _ _ h1 h2 => strLeB_trans h1 h2⟩

theorem sorted_eq_of_perm_nodupkeys :
    ∀ {l1 l2 : List (Str × JVal)}, l1.Perm l2 → l1.Sorted keyLe →
      l2.Sorted keyLe → (l1.map Prod.fst).Nodup → l1 = l2 := by
  intro l1
  induction l1 with
  | nil =>
      intro l2 hperm _ _ _
      exact (List.Perm.nil_eq hperm).symm ▸ rfl
  | cons a t1 ih =>
      intro l2 hperm hs1 hs2 hnd
      cases l2 with
      | nil => exact absurd hperm.symm (by simp)
      | cons b t2 =>
          simp only [List.sorted_cons] at hs1 hs2
          have hab : a = b := by
            have hamem : a ∈ b :: t2 := hperm.mem_iff.mp (List.mem_cons_self a t1)
            have hbmem : b ∈ a :: t1 := hperm.mem_iff.mpr (List.mem_cons_self b t2)
            rcases List.mem_cons.mp hamem with h | hat2
            · exact h
            · rcases List.mem_cons.mp hbmem with h | hbt1
              · exact h.symm
              · have h1 : keyLe a b := hs1.1 b hbt1
                have h2 : keyLe b a := hs2.1 a hat2
                have hk : a.1 = b.1 := strLeB_antisymm h1 h2
                exfalso
                simp only [List.map_cons, List.nodup_cons] at hnd
                exact hnd.1 (hk ▸ List.mem_map_of_mem Prod.fst hbt1)
          subst hab
          have htperm : t1.Perm t2 := hperm.cons_inv
          have : t1 = t2 := ih htperm hs1.2 hs2.2 (by
            simp only [List.map_cons, List.nodup_cons] at hnd
            exact hnd.2)
          rw [this]

theorem sortKeys_eq_of_perm {d1 d2 : List (Str × JVal)} (hperm : d1.Perm d2)
    (hkeys : (d1.map Prod.fst).Nodup) :
    d1.insertionSort keyLe = d2.insertionSort keyLe := by
  refine sorted_eq_of_perm_nodupkeys ?_ (List.sorted_insertionSort keyLe d1)
    (List.sorted_insertionSort keyLe d2) ?_
  · exact (List.perm_insertionSort keyLe d1).trans
      (hperm.trans (List.perm_insertionSort keyLe d2).symm)
  · exact ((List.perm_insertionSort keyLe d1).map Prod.fst).nodup_iff.mpr hkeys

/-- C9: query parameter dictionaries that are equal as key-value maps
(entry permutations of each other, keys distinct) produce the identical
cache artifact path; the path is the temp directory, the `pi_cache_`
prefix, the first 16 hex characters of the content digest of the
key-sorted JSON serialization, and the `.parquet` extension. -/
theorem cache_path_canonical (tempdir : Str) (d1 d2 : List (Str × JVal))
    (hperm : d1.Perm d2) (hkeys : (d1.map Prod.fst).Nodup) :
    cache_dataframe_parquet_path tempdir d1 =
      cache_dataframe_parquet_path tempdir d2 ∧
    ∃ h16, cache_dataframe_parquet_path tempdir d1 =
        tempdir ++ S "/pi_cache_" ++ h16 ++ S ".parquet" ∧
      h16.length = 16 ∧ ∀ c ∈ h16, isHexCp c = true := by
  constructor
  · unfold cache_dataframe_parquet_path json_dumps_sorted
    rw [sortKeys_eq_of_perm hperm hkeys]
  · refine ⟨(sha256hexdigest (json_dumps_sorted d1)).take 16, rfl, ?_, ?_⟩
    · have hlen : (sha256hexdigest (json_dumps_sorted d1)).length = 64 := by
        simp [sha256hexdigest]
      rw [List.length_take, hlen]
      decide
    · intro c hc
      have hc' : c ∈ sha256hexdigest (json_dumps_sorted d1) :=
        List.mem_of_mem_take hc
      simp only [sha256hexdigest, List.mem_map] at hc'
      obtain ⟨i, _, rfl⟩ := hc'
      have hlt : sha256digest (json_dumps_sorted d1) / 16 ^ (63 - i) % 16 < 16 :=
        Nat.mod_lt _ (by norm_num)
      unfold hexDigitCp isHexCp
      split_ifs with h
      · simp only [Bool.or_eq_true, Bool.and_eq_true, decide_eq_true_eq]
        omega
      · simp only [Bool.or_eq_true, Bool.and_eq_true, decide_eq_true_eq]
        omega

/-- Witness for C9 at the two-entry dictionary `dW1`/`dW2` (same map,
opposite insertion orders). -/
theorem cache_path_canonical_witness :
    cache_dataframe_parquet_path (S "/tmp") dW1 =
      cache_dataframe_parquet_path (S "/tmp") dW2 ∧
    ∃ h16, cache_dataframe_parquet_path (S "/tmp") dW1 =
        S "/tmp" ++ S "/pi_cache_" ++ h16 ++ S ".parquet" ∧
      h16.length = 16 ∧ ∀ c ∈ h16, isHexCp c = true :=
  cache_path_canonical (S "/tmp") dW1 dW2
    (by unfold dW1 dW2; exact List.Perm.swap _ _ _) (by decide)

/-! ## C5 — variant-3 parsing -/

theorem setCol_data_length (f : PFrame) (k : Str) (v : Cell) :
    (f.setCol k v).data.length = f.data.length := by
  unfold PFrame.setCol
  split_ifs <;> simp

theorem v3frame_data (ts vs : List JVal) (v : JVal) :
    (v3frame ts vs v).data = (ts.zip vs).map (fun p =>
      [(S "timestamp", some p.1), (S "value", some p.2),
       (S "tag", some (v3name v))] ++
      (if (getPy v (S "UnitsAbbreviation")).truthy
        then [(S "unit", some (getPy v (S "UnitsAbbreviation")))] else [])) := by
  have h1 : ¬ ((S "tag") ∈ ([S "timestamp", S "value"] : List Str)) := by decide
  have h2 : ¬ ((S "unit") ∈ ([S "timestamp", S "value"] ++ [S "tag"] : List Str)) := by
    decide
  unfold v3frame PFrame.setCol
  dsimp only
  by_cases hu : (getPy v (S "UnitsAbbreviation")).truthy = true
  · simp only [if_pos hu, if_neg h1, if_neg h2]
    simp only [List.map_map]
    rfl
  · simp only [if_neg hu, if_neg h1]
    simp only [List.map_map]
    rfl

/-- C5: a provider response in variant-3 shape (a JSON object without an
`Items` list, with parallel `Timestamps`/`Values` arrays of equal length
N) parses to exactly N rows, each row's `tag` cell equal to the shared
series name taken from the top-level fields (`Name` / `Label` / `Path`). -/
theorem parse_variant3_rows (fs : List (Str × JVal)) (ts vs : List JVal)
    (hitems : (JVal.obj fs).get (S "Items") = none)
    (hts : (JVal.obj fs).get (S "Timestamps") = some (.arr ts))
    (hvs : (JVal.obj fs).get (S "Values") = some (.arr vs))
    (hlen : ts.length = vs.length) :
    ∃ df, parse_json_variants (JVal.obj fs) = some df ∧
      df.data.length = ts.length ∧
      ∀ row ∈ df.data, cellOf row (S "tag") = some (v3name (JVal.obj fs)) := by
  have hparse : parse_json_variants (JVal.obj fs) =
      some (v3frame ts vs (JVal.obj fs)) := by
    unfold parse_json_variants
    dsimp only
    rw [hitems]
    unfold variant3
    rw [hts, hvs]
    dsimp only
    rw [if_pos hlen]
  refine ⟨v3frame ts vs (JVal.obj fs), hparse, ?_, ?_⟩
  · rw [v3frame_data]
    simp [List.length_zip, hlen]
  · intro row hrow
    rw [v3frame_data] at hrow
    obtain ⟨p, _, rfl⟩ := List.mem_map.mp hrow
    by_cases hu : (getPy (JVal.obj fs) (S "UnitsAbbreviation")).truthy
    · rw [if_pos hu]
      rfl
    · rw [if_neg hu]
      rfl

/-- Witness for C5 at a concrete two-sample variant-3 payload. -/
theorem parse_variant3_rows_witness :
    ∃ df, parse_json_variants objW = some df ∧
      df.data.length = 2 ∧
      ∀ row ∈ df.data, cellOf row (S "tag") = some (v3name objW) :=
  parse_variant3_rows
    [ (S "Timestamps", .arr [.num 100, .num 200])
    , (S "Values", .arr [.num (5/2), .num 6])
    , (S "Name", .str (S "tagA")) ]
    [.num 100, .num 200] [.num (5/2), .num 6] rfl rfl rfl rfl

/-! ## C6 — frame well-formedness and cell lemmas -/

theorem find?_key_none {β : Type} (row : List (Str × β)) (cols : List Str)
    (k : Str) (hrow : row.map Prod.fst = cols) (hk : k ∉ cols) :
    row.find? (fun kv => kv.1 = k) = none := by
  rw [List.find?_eq_none]
  intro kv hkv
  simp only [decide_eq_true_eq]
  intro heq
  exact hk (hrow ▸ heq ▸ List.mem_map_of_mem Prod.fst hkv)

theorem find?_key_isSome {β : Type} (row : List (Str × β)) (cols : List Str)
    (k : Str) (hrow : row.map Prod.fst = cols) (hk : k ∈ cols) :
    (row.find? (fun kv => kv.1 = k)).isSome := by
  rw [List.find?_isSome]
  subst hrow
  obtain ⟨kv, hkv, rfl⟩ := List.mem_map.mp hk
  exact ⟨kv, hkv, by simp⟩

theorem cellOf_append_left (row l2 : PRow) (k : Str)
    (h : (row.find? (fun kv => kv.1 = k)).isSome) :
    cellOf (row ++ l2) k = cellOf row k := by
  unfold cellOf
  rw [List.find?_append]
  obtain ⟨kv, hkv⟩ := Option.isSome_iff_exists.mp h
  rw [hkv]
  rfl

theorem cellOf_append_right (row l2 : PRow) (k : Str)
    (h : row.find? (fun kv => kv.1 = k) = none) :
    cellOf (row ++ l2) k = cellOf l2 k := by
  unfold cellOf
  rw [List.find?_append, h]
  rfl

theorem cellOf_map_entry (row : PRow) (t k : Str) (g : Cell → Cell)
    (hk : k ≠ t) :
    cellOf (row.map (fun kv => if kv.1 = t then (kv.1, g kv.2) else kv)) k =
      cellOf row k := by
  induction row with
  | nil => rfl
  | cons kv rest ih =>
      unfold cellOf at ih ⊢
      rw [List.map_cons]
      by_cases h1 : kv.1 = t
      · have h2 : ¬ (kv.1 = k) := by rw [h1]; exact fun hh => hk hh.symm
        rw [if_pos h1]
        rw [List.find?_cons_of_neg _ (by simpa using h2),
          List.find?_cons_of_neg _ (by simpa using h2)]
        exact ih
      · rw [if_neg h1]
        by_cases h2 : kv.1 = k
        · rw [List.find?_cons_of_pos _ (by simpa using h2),
            List.find?_cons_of_pos _ (by simpa using h2)]
        · rw [List.find?_cons_of_neg _ (by simpa using h2),
            List.find?_cons_of_neg _ (by simpa using h2)]
          exact ih

theorem setCol_cells_new (f : PFrame) (k : Str) (v : Cell) (hw : WF f)
    (hk : k ∉ f.cols) : ∀ row ∈ (f.setCol k v).data, cellOf row k = v := by
  intro row hrow
  unfold PFrame.setCol at hrow
  rw [if_neg hk] at hrow
  obtain ⟨row0, hrow0, rfl⟩ := List.mem_map.mp hrow
  rw [cellOf_append_right _ _ _ (find?_key_none row0 f.cols k (hw row0 hrow0) hk)]
  unfold cellOf
  rw [List.find?_cons_of_pos _ (by simp)]
  rfl

theorem setCol_cols (f : PFrame) (k : Str) (v : Cell) :
    (f.setCol k v).cols = if k ∈ f.cols then f.cols else f.cols ++ [k] := by
  unfold PFrame.setCol
  split_ifs <;> rfl

theorem map_fst_filter_key {β : Type} (row : List (Str × β)) (l : Str) :
    (row.filter (fun kv => kv.1 = l)).map Prod.fst =
      (row.map Prod.fst).filter (fun c => c = l) := by
  induction row with
  | nil => rfl
  | cons kv t ih =>
      by_cases h : kv.1 = l
      · rw [List.filter_cons_of_pos (by simpa using h), List.map_cons,
          List.map_cons, List.filter_cons_of_pos (by simpa using h), ih]
      · rw [List.filter_cons_of_neg (by simpa using h), List.map_cons,
          List.filter_cons_of_neg (by simpa using h), ih]

theorem cellOf_flatMap_filter (row : PRow) (labels : List Str) (k : Str)
    (hk : k ∈ labels) :
    cellOf (labels.flatMap (fun l => row.filter (fun kv => kv.1 = l))) k =
      cellOf row k := by
  induction labels with
  | nil => cases hk
  | cons l rest ih =>
      rw [List.flatMap_cons]
      by_cases hkl : k = l
      · subst hkl
        cases hfind : row.find? (fun kv => kv.1 = k) with
        | some kv =>
            rw [cellOf_append_left]
            · unfold cellOf
              rw [find?_eq_head_filter, List.filter_filter]
              rw [show (fun (kv : Str × Cell) =>
                  decide (kv.1 = k) && decide (kv.1 = k)) =
                (fun kv => decide (kv.1 = k)) from by
                  funext kv; cases hkv : decide (kv.1 = k) <;> simp [hkv]]
              rw [← find?_eq_head_filter]
            · rw [find?_eq_head_filter, List.filter_filter]
              rw [show (fun (kv : Str × Cell) =>
                  decide (kv.1 = k) && decide (kv.1 = k)) =
                (fun kv => decide (kv.1 = k)) from by
                  funext kv; cases hkv : decide (kv.1 = k) <;> simp [hkv]]
              rw [← find?_eq_head_filter, hfind]
              rfl
        | none =>
            have hfe : row.filter (fun kv => kv.1 = k) = [] := by
              rw [find?_eq_head_filter] at hfind
              exact List.head?_eq_none_iff.mp hfind
            rw [hfe, List.nil_append]
            have hnone : (rest.flatMap (fun l =>
                List.filter (fun kv => decide (kv.1 = l)) row)).find?
                (fun kv => kv.1 = k) = none := by
              rw [List.find?_eq_none]
              intro kv hkv
              obtain ⟨l', _, hkv'⟩ := List.mem_flatMap.mp hkv
              simp only [decide_eq_true_eq]
              intro heq
              have hmem : kv ∈ row := List.mem_of_mem_filter hkv'
              have hcontra : row.find? (fun kv => kv.1 = k) ≠ none := by
                rw [ne_eq, List.find?_eq_none]
                push_neg
                exact ⟨kv, hmem, by simp [heq]⟩
              exact hcontra hfind
            unfold cellOf
            rw [hfind, hnone]
      · have hk' : k ∈ rest := by
          rcases List.mem_cons.mp hk with h | h
          · exact absurd h hkl
          · exact h
        rw [cellOf_append_right]
        · exact ih hk'
        · rw [List.find?_eq_none]
          intro kv hkv
          have hl : kv.1 = l := by simpa using List.of_mem_filter hkv
          simp only [decide_eq_true_eq]
          rw [hl]
          exact fun hh => hkl hh.symm

theorem WF_emptyF : WF PFrame.emptyF := by
  intro row hrow
  cases hrow

theorem WF_pdFrameOfDicts (items : List JVal) : WF (pdFrameOfDicts items) := by
  unfold pdFrameOfDicts
  intro row hrow
  dsimp only at hrow ⊢
  obtain ⟨it, _, rfl⟩ := List.mem_map.mp hrow
  rw [List.map_map,
    show (Prod.fst ∘ fun c => (c, it.get c)) = id from rfl, List.map_id]

theorem WF_rename (f : PFrame) (hw : WF f) : WF (rename_common_keys f) := by
  intro row hrow
  unfold rename_common_keys at hrow ⊢
  dsimp only at hrow ⊢
  obtain ⟨row0, hrow0, rfl⟩ := List.mem_map.mp hrow
  rw [List.map_map, ← hw row0 hrow0, List.map_map]
  rfl

theorem WF_setCol (f : PFrame) (k : Str) (v : Cell) (hw : WF f) :
    WF (f.setCol k v) := by
  intro row hrow
  unfold PFrame.setCol at hrow ⊢
  by_cases hk : k ∈ f.cols
  · rw [if_pos hk] at hrow
    rw [if_pos hk]
    dsimp only at hrow ⊢
    obtain ⟨row0, hrow0, rfl⟩ := List.mem_map.mp hrow
    rw [List.map_map, ← hw row0 hrow0]
    apply List.map_congr_left
    intro kv _
    by_cases h : kv.1 = k <;> simp [h]
  · rw [if_neg hk] at hrow
    rw [if_neg hk]
    dsimp only at hrow ⊢
    obtain ⟨row0, hrow0, rfl⟩ := List.mem_map.mp hrow
    rw [List.map_append, hw row0 hrow0]
    rfl

theorem WF_select (f : PFrame) (labels : List Str) (hw : WF f) :
    WF (f.select labels) := by
  intro row hrow
  unfold PFrame.select at hrow ⊢
  dsimp only at hrow ⊢
  obtain ⟨row0, hrow0, rfl⟩ := List.mem_map.mp hrow
  rw [List.map_flatMap]
  congr 1
  funext l
  rw [map_fst_filter_key, hw row0 hrow0]

theorem WF_concat (frames : List PFrame) : WF (concatFrames frames) := by
  intro row hrow
  unfold concatFrames at hrow ⊢
  dsimp only at hrow ⊢
  obtain ⟨fr, _, hfr⟩ := List.mem_flatMap.mp hrow
  obtain ⟨row0, _, rfl⟩ := List.mem_map.mp hfr
  rw [List.map_map,
    show (Prod.fst ∘ fun c => (c, cellOf row0 c)) = id from rfl, List.map_id]

theorem WF_v3frame (ts vs : List JVal) (v : JVal) : WF (v3frame ts vs v) := by
  have hbase : WF ({
      cols := [S "timestamp", S "value"],
      data := (ts.zip vs).map (fun p =>
        [(S "timestamp", some p.1), (S "value", some p.2)]) } : PFrame) := by
    intro row hrow
    obtain ⟨p, _, rfl⟩ := List.mem_map.mp hrow
    rfl
  unfold v3frame
  dsimp only
  by_cases hu : (getPy v (S "UnitsAbbreviation")).truthy = true
  · rw [if_pos hu]
    exact WF_setCol _ _ _ (WF_setCol _ _ _ hbase)
  · rw [if_neg hu]
    exact WF_setCol _ _ _ hbase

theorem WF_csv_branch (t : PFrame) : WF (csv_branch t) := by
  unfold csv_branch
  dsimp only
  split_ifs with hc
  all_goals first
    | exact WF_emptyF
    | (intro row hrow
       obtain ⟨row0, hrow0, rfl⟩ := List.mem_map.mp (List.mem_of_mem_filter hrow)
       simp)

theorem WF_variant3 (v : JVal) (df : PFrame) (h : variant3 v = some df) :
    WF df := by
  unfold variant3 at h
  repeat' split at h
  all_goals cases h
  all_goals first
    | exact WF_v3frame _ _ _
    | exact WF_emptyF

theorem WF_variant2 (v : JVal) (items : List JVal) (df : PFrame)
    (h : variant2 v items = some df) : WF df := by
  unfold variant2 at h
  split at h
  all_goals try exact WF_variant3 v df h
  all_goals dsimp only at h
  all_goals split_ifs at h
  all_goals try exact WF_variant3 v df h
  all_goals cases h
  all_goals exact WF_select _ _ (WF_rename _ (WF_pdFrameOfDicts _))

theorem WF_jsonItemsBranch (v : JVal) (items : List JVal) (df : PFrame)
    (h : jsonItemsBranch v items = some df) : WF df := by
  unfold jsonItemsBranch at h
  dsimp only at h
  split_ifs at h with hg
  all_goals try exact WF_variant2 v items df h
  all_goals try exact WF_variant3 v df h
  all_goals split at h
  all_goals try cases h
  all_goals split_ifs at h
  all_goals try exact WF_variant2 v items df h
  all_goals try exact WF_variant3 v df h
  all_goals cases h
  all_goals exact WF_concat _

theorem WF_parse_json_variants (v : JVal) (df : PFrame)
    (h : parse_json_variants v = some df) : WF df := by
  unfold parse_json_variants at h
  cases v with
  | obj fields =>
      cases hit : (JVal.obj fields).get (S "Items") with
      | none =>
          rw [hit] at h
          exact WF_variant3 _ df h
      | some itv =>
          rw [hit] at h
          cases itv
          all_goals try exact WF_variant3 _ df h
          all_goals exact WF_jsonItemsBranch _ _ df h
  | arr xs =>
      dsimp only at h
      split_ifs at h
      all_goals cases h
      all_goals exact WF_emptyF
  | str s =>
      dsimp only at h
      split_ifs at h
      all_goals cases h
      all_goals exact WF_emptyF
  | null => cases h
  | bool b => cases h
  | num q => cases h

theorem WF_parse (inp : RawInput) : WF (parse_pi_response_to_df inp) := by
  have hcsv : WF (csv_part inp) := by
    unfold csv_part
    cases inp.readCsv with
    | none => exact WF_emptyF
    | some t => exact WF_csv_branch t
  unfold parse_pi_response_to_df
  cases hj : inp.jsonLoads with
  | none => exact hcsv
  | some o =>
      cases hp : parse_json_variants o with
      | none => simp only [hp]; exact hcsv
      | some df =>
          simp only [hp]
          split_ifs with hemp
          · exact WF_parse_json_variants o df hp
          · exact hcsv

theorem statAttach_single (f : PFrame) (params : APIParams)
    (hstat : (S "stat") ∉ f.cols) (d0 : Str)
    (hds : params.datasets.getD [] = [d0]) :
    statAttachF f params = f.setCol (S "stat") (some (.str d0)) := by
  unfold statAttachF
  rw [if_pos hstat]
  dsimp only
  rw [hds]
  simp

theorem statAttach_multi (f : PFrame) (params : APIParams)
    (hstat : (S "stat") ∉ f.cols)
    (hds : 1 < (params.datasets.getD []).length) :
    statAttachF f params = f.setCol (S "stat") none := by
  unfold statAttachF
  rw [if_pos hstat]
  dsimp only
  have h1 : ¬ ((params.datasets.getD []).length = 1) := by omega
  rw [if_neg h1, if_pos hds]

theorem setCol_new_cols_mem (f : PFrame) (k : Str) (v : Cell)
    (hk : k ∉ f.cols) : k ∈ (f.setCol k v).cols := by
  rw [setCol_cols, if_neg hk]
  exact List.mem_append_right _ (by simp)

theorem tsNormalize_cols (df : PFrame) : (tsNormalizeF df).cols = df.cols := by
  unfold tsNormalizeF
  split_ifs <;> rfl

theorem tsNormalize_cells (df : PFrame) (k : Str) (hk : k ≠ S "timestamp")
    (v : Cell) (h : ∀ row ∈ df.data, cellOf row k = v) :
    ∀ row ∈ (tsNormalizeF df).data, cellOf row k = v := by
  unfold tsNormalizeF
  split_ifs with hts
  · intro row hrow
    dsimp only at hrow
    rw [List.mem_insertionSort] at hrow
    obtain ⟨row0, hrow0, rfl⟩ := List.mem_map.mp (List.mem_of_mem_filter hrow)
    rw [cellOf_map_entry row0 (S "timestamp") k _ hk]
    exact h row0 hrow0
  · exact h

theorem tsNormalize_WF (df : PFrame) (hw : WF df) : WF (tsNormalizeF df) := by
  unfold tsNormalizeF
  split_ifs with hts
  · intro row hrow
    dsimp only at hrow ⊢
    rw [List.mem_insertionSort] at hrow
    obtain ⟨row0, hrow0, rfl⟩ := List.mem_map.mp (List.mem_of_mem_filter hrow)
    rw [List.map_map, ← hw row0 hrow0]
    apply List.map_congr_left
    intro kv _
    by_cases hkv : kv.1 = S "timestamp" <;> simp [hkv]
  · exact hw

theorem unitAttach_cells (df : PFrame) (params : APIParams) (k : Str)
    (hw : WF df) (hkcols : k ∈ df.cols) (v : Cell)
    (h : ∀ row ∈ df.data, cellOf row k = v) :
    ∀ row ∈ (unitAttachF df params).data, cellOf row k = v := by
  unfold unitAttachF
  split_ifs with hc
  · intro row hrow
    unfold PFrame.setCol at hrow
    rw [if_neg hc.1] at hrow
    obtain ⟨row0, hrow0, rfl⟩ := List.mem_map.mp hrow
    rw [cellOf_append_left _ _ _
      (find?_key_isSome row0 df.cols k (hw row0 hrow0) hkcols)]
    exact h row0 hrow0
  · exact h

theorem unitAttach_cols_mem (df : PFrame) (params : APIParams) (k : Str)
    (hk : k ∈ df.cols) : k ∈ (unitAttachF df params).cols := by
  unfold unitAttachF
  split_ifs with hc
  · rw [setCol_cols, if_neg hc.1]
    exact List.mem_append_left _ hk
  · exact hk

theorem unitAttach_WF (df : PFrame) (params : APIParams) (hw : WF df) :
    WF (unitAttachF df params) := by
  unfold unitAttachF
  split_ifs with hc
  · exact WF_setCol _ _ _ hw
  · exact hw

theorem reorder_cells (df : PFrame) (k : Str)
    (hkcols : k ∈ df.cols)
    (hkord : k ∈ [S "timestamp", S "tag", S "stat", S "value", S "unit"])
    (v : Cell) (h : ∀ row ∈ df.data, cellOf row k = v) :
    ∀ row ∈ (reorderColsF df).data, cellOf row k = v := by
  unfold reorderColsF PFrame.select
  intro row hrow
  dsimp only at hrow
  obtain ⟨row0, hrow0, rfl⟩ := List.mem_map.mp hrow
  rw [cellOf_flatMap_filter row0 _ k (List.mem_append_left _
    (List.mem_filter.mpr ⟨hkord, by simpa using hkcols⟩))]
  exact h row0 hrow0

theorem reorder_cols_mem (df : PFrame) (k : Str) (hkcols : k ∈ df.cols)
    (hkord : k ∈ [S "timestamp", S "tag", S "stat", S "value", S "unit"]) :
    k ∈ (reorderColsF df).cols := by
  unfold reorderColsF PFrame.select
  dsimp only
  rw [List.mem_flatMap]
  refine ⟨k, List.mem_append_left _
    (List.mem_filter.mpr ⟨hkord, by simpa using hkcols⟩), ?_⟩
  rw [List.mem_filter]
  exact ⟨hkcols, by simp⟩

/-- C6: when the parse produced no `stat` column, `fetch_to_dataframe`
stamps every output row with the single requested dataset kind, and with
more than one requested kind it adds the column but leaves the value unset
(`pd.NA`) on every row. -/
theorem fetch_stat_stamping (status : Nat) (inp : RawInput)
    (params : APIParams) (df : PFrame)
    (hstat : (S "stat") ∉ (parse_pi_response_to_df inp).cols)
    (hok : fetch_to_dataframe status inp params = .ok df) :
    (∀ d0, params.datasets.getD [] = [d0] →
      (S "stat") ∈ df.cols ∧
      ∀ row ∈ df.data, cellOf row (S "stat") = some (.str d0)) ∧
    (1 < (params.datasets.getD []).length →
      (S "stat") ∈ df.cols ∧
      ∀ row ∈ df.data, cellOf row (S "stat") = none) := by
  unfold fetch_to_dataframe at hok
  by_cases hst : status ≠ 200
  · rw [if_pos hst] at hok; cases hok
  · rw [if_neg hst] at hok
    dsimp only at hok
    split_ifs at hok with hemp
    all_goals cases hok
    all_goals (
      have hw0 := WF_parse inp
      constructor
      · intro d0 hds
        rw [statAttach_single _ _ hstat d0 hds]
        have hw1 := WF_setCol (parse_pi_response_to_df inp) (S "stat")
          (some (.str d0)) hw0
        have hcell1 := setCol_cells_new (parse_pi_response_to_df inp)
          (S "stat") (some (.str d0)) hw0 hstat
        have hcols1 := setCol_new_cols_mem (parse_pi_response_to_df inp)
          (S "stat") (some (.str d0)) hstat
        have hw2 := tsNormalize_WF _ hw1
        have hcell2 := tsNormalize_cells _ (S "stat") (by decide) _ hcell1
        have hcols2 : (S "stat") ∈ (tsNormalizeF ((parse_pi_response_to_df
            inp).setCol (S "stat") (some (.str d0)))).cols := by
          rw [tsNormalize_cols]; exact hcols1
        have hw3 := unitAttach_WF _ params hw2
        have hcell3 := unitAttach_cells _ params (S "stat") hw2 hcols2 _ hcell2
        have hcols3 := unitAttach_cols_mem _ params (S "stat") hcols2
        exact ⟨reorder_cols_mem _ (S "stat") hcols3 (by decide),
          reorder_cells _ (S "stat") hcols3 (by decide) _ hcell3⟩
      · intro hds
        rw [statAttach_multi _ _ hstat hds]
        have hw1 := WF_setCol (parse_pi_response_to_df inp) (S "stat") none hw0
        have hcell1 := setCol_cells_new (parse_pi_response_to_df inp)
          (S "stat") none hw0 hstat
        have hcols1 := setCol_new_cols_mem (parse_pi_response_to_df inp)
          (S "stat") none hstat
        have hw2 := tsNormalize_WF _ hw1
        have hcell2 := tsNormalize_cells _ (S "stat") (by decide) _ hcell1
        have hcols2 : (S "stat") ∈ (tsNormalizeF ((parse_pi_response_to_df
            inp).setCol (S "stat") none)).cols := by
          rw [tsNormalize_cols]; exact hcols1
        have hw3 := unitAttach_WF _ params hw2
        have hcell3 := unitAttach_cells _ params (S "stat") hw2 hcols2 _ hcell2
        have hcols3 := unitAttach_cols_mem _ params (S "stat") hcols2
        exact ⟨reorder_cols_mem _ (S "stat") hcols3 (by decide),
          reorder_cells _ (S "stat") hcols3 (by decide) _ hcell3⟩)

/-- Witness for C6 at a concrete variant-3 payload: with a single requested
dataset every fetched row is stamped `"Average"`; with two requested
datasets the `stat` column is present but unset on every row. -/
theorem fetch_stat_stamping_witness :
    ((S "stat") ∈ dfW.cols ∧
      ∀ row ∈ dfW.data, cellOf row (S "stat") = some (.str (S "Average"))) ∧
    ((S "stat") ∈ dfW2.cols ∧
      ∀ row ∈ dfW2.data, cellOf row (S "stat") = none) := by
  constructor
  · exact (fetch_stat_stamping 200 inpW paramsW dfW (by decide) (by rfl)).1
      (S "Average") rfl
  · exact (fetch_stat_stamping 200 inpW paramsW2 dfW2 (by decide) (by rfl)).2
      (by decide)

/-! ## C3 — resampling toolkit -/

theorem min?_perm {α : Type} [LinearOrder α] {l1 l2 : List α} (h : l1.Perm l2) :
    l1.min? = l2.min? := by
  induction h with
  | nil => rfl
  | cons x _ ih => rw [List.min?_cons, List.min?_cons, ih]
  | swap x y l =>
      rw [List.min?_cons, List.min?_cons, List.min?_cons, List.min?_cons]
      cases l.min? with
      | none => simp [min_comm]
      | some m => simp [min_left_comm]
  | trans _ _ ih1 ih2 => rw [ih1, ih2]

theorem max?_perm {α : Type} [LinearOrder α] {l1 l2 : List α} (h : l1.Perm l2) :
    l1.max? = l2.max? := by
  induction h with
  | nil => rfl
  | cons x _ ih => rw [List.max?_cons, List.max?_cons, ih]
  | swap x y l =>
      rw [List.max?_cons, List.max?_cons, List.max?_cons, List.max?_cons]
      cases l.max? with
      | none => simp [max_comm]
      | some m => simp [max_left_comm]
  | trans _ _ ih1 ih2 => rw [ih1, ih2]

theorem aggOf_perm (how : Str) {ws1 ws2 : List ℚ} (h : ws1.Perm ws2) :
    aggOf how ws1 = aggOf how ws2 := by
  unfold aggOf
  split_ifs
  · rw [h.sum_eq]
  · rw [min?_perm h]
  · rw [max?_perm h]
  · cases hw1 : ws1 with
    | nil =>
        have hw2 : ws2 = [] := List.Perm.nil_eq (hw1 ▸ h) |>.symm
        rw [hw2]
    | cons a t =>
        cases hw2 : ws2 with
        | nil =>
            rw [hw1, hw2] at h
            exact absurd h.symm (by simp)
        | cons b u =>
            rw [← hw1, ← hw2]
            rw [hw1, hw2] at h
            rw [hw1, hw2]
            dsimp only
            rw [h.sum_eq, h.length_eq]

theorem resampleSeries_perm {rows1 rows2 : List TRow} (h : rows1.Perm rows2)
    (d : Nat) (how : Str) :
    resampleSeries rows1 d how = resampleSeries rows2 d how := by
  unfold resampleSeries
  rw [min?_perm (h.map (·.ts)), max?_perm (h.map (·.ts))]
  cases hmin : (rows2.map (·.ts)).min? with
  | none => rfl
  | some tmin =>
      cases hmax : (rows2.map (·.ts)).max? with
      | none => rfl
      | some tmax =>
          dsimp only
          apply List.map_congr_left
          intro i _
          congr 1
          exact aggOf_perm how ((h.filter _).filterMap _)

theorem resampleSeries_spec (rows : List TRow) (d : Nat) (how : Str) :
    resampleSeries rows d how = (spec_windows d rows).map (fun b =>
      (b, aggOf how ((spec_window_rows d b rows).filterMap (·.value)))) := by
  unfold resampleSeries spec_windows spec_window_rows
  cases hmin : (rows.map (·.ts)).min? with
  | none => rfl
  | some tmin =>
      cases hmax : (rows.map (·.ts)).max? with
      | none => rfl
      | some tmax =>
          dsimp only
          rw [List.map_map]
          rfl

theorem field_setField_self (r : TRow) (v : Str) (k : Str)
    (hk : k = S "tag" ∨ k = S "stat" ∨ k = S "unit") :
    (setField k v r).field k = some v := by
  rcases hk with rfl | rfl | rfl <;> rfl

theorem field_setField_other (r : TRow) (v : Str) {k k' : Str}
    (hne : k ≠ k') : (setField k' v r).field k = r.field k := by
  unfold setField
  split_ifs with h1 h2 h3
  · subst h1; simp [TRow.field, hne]
  · subst h2; simp [TRow.field, hne]
  · subst h3; simp [TRow.field, hne]
  · rfl

theorem field_restoreKeys_notin (gs : List Str) (vs : List Str) (r : TRow)
    (g : Str) (hg : g ∉ gs) : (restoreKeys gs vs r).field g = r.field g := by
  induction gs generalizing vs r with
  | nil => rfl
  | cons x xs ih =>
      cases vs with
      | nil => rfl
      | cons v vs =>
          have hgx : g ≠ x := fun hh => hg (hh ▸ List.mem_cons_self _ _)
          have hgxs : g ∉ xs := fun hh => hg (List.mem_cons_of_mem _ hh)
          show (restoreKeys xs vs (setField x v r)).field g = r.field g
          rw [ih vs (setField x v r) hgxs, field_setField_other r v hgx]

theorem rowKey_restoreKeys (gk : List Str) (kvals : List Str) (r : TRow)
    (hnd : gk.Nodup)
    (hsub : ∀ x ∈ gk, x = S "tag" ∨ x = S "stat" ∨ x = S "unit")
    (hlen : kvals.length = gk.length) :
    rowKey gk (restoreKeys gk kvals r) = some kvals := by
  induction gk generalizing kvals r with
  | nil =>
      cases kvals with
      | nil => rfl
      | cons v vs => simp at hlen
  | cons g gs ih =>
      cases kvals with
      | nil => simp at hlen
      | cons v vs =>
          have hstep : restoreKeys (g :: gs) (v :: vs) r =
              restoreKeys gs vs (setField g v r) := rfl
          rw [hstep]
          have hgnotin : g ∉ gs := (List.nodup_cons.mp hnd).1
          have hfield : (restoreKeys gs vs (setField g v r)).field g = some v := by
            rw [field_restoreKeys_notin gs vs _ g hgnotin]
            exact field_setField_self r v g (hsub g (List.mem_cons_self _ _))
          have hrest : rowKey gs (restoreKeys gs vs (setField g v r)) = some vs :=
            ih vs (setField g v r) (List.nodup_cons.mp hnd).2
              (fun x hx => hsub x (List.mem_cons_of_mem _ hx))
              (by simpa using hlen)
          unfold rowKey at hrest ⊢
          rw [List.mapM_cons, hfield, hrest]
          rfl

theorem rowKey_length {gk : List Str} {r : TRow} {k : List Str}
    (h : rowKey gk r = some k) : k.length = gk.length := by
  induction gk generalizing k with
  | nil =>
      unfold rowKey at h
      simp only [List.mapM_nil] at h
      cases h
      rfl
  | cons g gs ih =>
      unfold rowKey at h ih
      rw [List.mapM_cons] at h
      cases hf : r.field g with
      | none => rw [hf] at h; simp at h
      | some v =>
          rw [hf] at h
          cases hmm : gs.mapM r.field with
          | none => rw [hmm] at h; simp at h
          | some vs =>
              rw [hmm] at h
              simp at h
              rw [← h]
              simp [ih hmm]

theorem mem_groupsOf {gk : List Str} {rows : List TRow} {g : List Str} :
    g ∈ groupsOf gk rows ↔ ∃ r ∈ rows, rowKey gk r = some g := by
  unfold groupsOf
  rw [List.mem_insertionSort, List.mem_dedup, List.mem_filterMap]

theorem groupsOf_nodup (gk : List Str) (rows : List TRow) :
    (groupsOf gk rows).Nodup := by
  unfold groupsOf
  exact (List.perm_insertionSort _ _).nodup_iff.mpr (List.nodup_dedup _)

theorem flatten_single {α β : Type} (keys : List β) (g : β)
    (f : β → List α) (hnd : keys.Nodup) (hg : g ∈ keys)
    (h : ∀ k ∈ keys, k ≠ g → f k = []) : (keys.map f).flatten = f g := by
  induction keys with
  | nil => cases hg
  | cons k ks ih =>
      simp only [List.map_cons, List.flatten_cons]
      rcases List.mem_cons.mp hg with rfl | hgks
      · have hrest : (ks.map f).flatten = [] := by
          rw [List.flatten_eq_nil_iff]
          intro l hl
          obtain ⟨k', hk', rfl⟩ := List.mem_map.mp hl
          refine h k' (List.mem_cons_of_mem _ hk') ?_
          intro hkg
          exact (List.nodup_cons.mp hnd).1 (hkg ▸ hk')
        rw [hrest, List.append_nil]
      · have hk : f k = [] := h k (List.mem_cons_self _ _) (by
          intro hkg
          exact (List.nodup_cons.mp hnd).1 (hkg ▸ hgks))
        rw [hk, List.nil_append]
        exact ih (List.nodup_cons.mp hnd).2 hgks
          (fun k' hk' hne => h k' (List.mem_cons_of_mem _ hk') hne)

theorem colPresent_ts {df : TFrame} (h : df.hasTs = true) :
    df.colPresent (S "timestamp") = true := by
  unfold TFrame.colPresent
  rw [if_pos rfl]
  exact h

theorem colPresent_val {df : TFrame} (h : df.hasVal = true) :
    df.colPresent (S "value") = true := by
  unfold TFrame.colPresent
  rw [if_neg (by decide), if_pos rfl]
  exact h

theorem resample_data_ungrouped (df : TFrame) (d : Nat) (how : Str)
    (hts : df.hasTs = true) (hval : df.hasVal = true)
    (hne : df.data ≠ []) (hgk : usedGroupKeys df = []) :
    (resample_timeseries df d how [S "tag", S "stat"]).data =
      (resampleSeries (df.data.insertionSort rowTsLe) d how).map
        (fun bv => { ts := bv.1, value := bv.2 }) := by
  have hie : df.data.isEmpty = false := by
    cases hd0 : df.data with
    | nil => exact absurd hd0 hne
    | cons a l => rfl
  unfold resample_timeseries
  rw [if_neg (by rw [colPresent_ts hts, colPresent_val hval]; decide)]
  rw [if_neg (by rw [hie]; exact Bool.false_ne_true)]
  dsimp only
  have hgk' : ([S "tag", S "stat"].filter (fun k => df.colPresent k)) = [] := hgk
  rw [hgk']
  rfl

theorem resample_data_grouped (df : TFrame) (d : Nat) (how : Str)
    (hts : df.hasTs = true) (hval : df.hasVal = true)
    (hne : df.data ≠ []) (hgk : usedGroupKeys df ≠ []) :
    (resample_timeseries df d how [S "tag", S "stat"]).data =
      (((groupsOf (usedGroupKeys df) df.data).map (fun g =>
        (resampleSeries ((df.data.filter (fun r =>
            rowKey (usedGroupKeys df) r = some g)).insertionSort rowTsLe)
          d how).map
          (fun bv => restoreKeys (usedGroupKeys df) g
            { ts := bv.1, value := bv.2 }))).flatten).insertionSort rowTsLe := by
  have hie : df.data.isEmpty = false := by
    cases hd0 : df.data with
    | nil => exact absurd hd0 hne
    | cons a l => rfl
  have hgk' : ([S "tag", S "stat"].filter (fun k => df.colPresent k)).isEmpty
      = false := by
    cases hfe : [S "tag", S "stat"].filter (fun k => df.colPresent k) with
    | nil => exact absurd hfe hgk
    | cons a l => rfl
  unfold resample_timeseries
  rw [if_neg (by rw [colPresent_ts hts, colPresent_val hval]; decide)]
  rw [if_neg (by rw [hie]; exact Bool.false_ne_true)]
  dsimp only
  rw [if_pos (by rw [hgk']; rfl)]
  rfl

/-- C3 counterexample: on the concrete tidy frame `df0` (rows at 0 s and
7200 s, nothing in between) resampled to 3600 s windows with the `mean`
aggregator, the window starting at 3600 contains no input row of the
partition, yet the resampled frame does contain an output row stamped
with timestamp 3600 — an empty interior window produces an output row,
contrary to the claim. -/
theorem resample_empty_window_cex :
    spec_window_rows 3600 3600
        (spec_partition (usedGroupKeys df0) [S "a"] df0.data) = []
  ∧ ((resample_timeseries df0 3600 (S "mean") [S "tag", S "stat"]).data.any
      (fun r => r.ts = 3600)) = true := by
  decide

/-- C3 (amended): for every tidy frame with both the timestamp and value
columns, every target interval and aggregator, and every group key
produced by grouping on the group-by fields present, the resampled rows
carrying that key are exactly one output row per fixed-width
epoch-aligned window of the partition's observed span — the window start
as timestamp and the aggregator applied to the window's values.  An empty
window therefore still produces a row (with a missing value for
`mean`/`min`/`max` and zero for `sum`); only windows outside the span
from the partition's earliest to latest row produce no output row. -/
theorem resample_timeseries_windows (df : TFrame) (d : Nat) (how : Str)
    (g : List Str)
    (hts : df.hasTs = true) (hval : df.hasVal = true)
    (hg : g ∈ groupsOf (usedGroupKeys df) df.data) :
    ((resample_timeseries df d how [S "tag", S "stat"]).data.filter
        (fun r => rowKey (usedGroupKeys df) r = some g)).Perm
      ((spec_windows d (spec_partition (usedGroupKeys df) g df.data)).map
        (fun b => restoreKeys (usedGroupKeys df) g
          { ts := b,
            value := aggOf how
              ((spec_window_rows d b
                  (spec_partition (usedGroupKeys df) g df.data)).filterMap
                (·.value)) })) := by
  have hne : df.data ≠ [] := by
    obtain ⟨r, hr, _⟩ := mem_groupsOf.mp hg
    intro h0
    rw [h0] at hr
    simp at hr
  by_cases hgkE : usedGroupKeys df = []
  · -- no usable group key: the source resamples the whole frame as one series
    have hgnil : g = [] := by
      obtain ⟨r, _, hk⟩ := mem_groupsOf.mp hg
      rw [hgkE] at hk
      have : rowKey ([] : List Str) r = some [] := rfl
      rw [this] at hk
      exact (Option.some.injEq _ _ ▸ hk).symm
    subst hgnil
    rw [resample_data_ungrouped df d how hts hval hne hgkE, hgkE]
    have hfself : ∀ (l : List TRow),
        l.filter (fun r => rowKey ([] : List Str) r = some []) = l := by
      intro l
      apply List.filter_eq_self.mpr
      intro a _
      have : rowKey ([] : List Str) a = some [] := rfl
      simp [this]
    have hpart : spec_partition ([] : List Str) [] df.data = df.data :=
      hfself df.data
    rw [hfself, hpart]
    rw [resampleSeries_perm (List.perm_insertionSort rowTsLe df.data) d how,
      resampleSeries_spec df.data d how, List.map_map]
    exact List.Perm.refl _
  · -- grouped branch
    rw [resample_data_grouped df d how hts hval hne hgkE]
    have hnd : (usedGroupKeys df).Nodup := by
      unfold usedGroupKeys
      exact List.Nodup.filter _ (by decide)
    have hsub : ∀ x ∈ usedGroupKeys df,
        x = S "tag" ∨ x = S "stat" ∨ x = S "unit" := by
      intro x hx
      have hx2 : x ∈ ([S "tag", S "stat"] : List Str) :=
        List.mem_of_mem_filter hx
      rcases List.mem_cons.mp hx2 with h | h
      · exact Or.inl h
      · rcases List.mem_cons.mp h with h2 | h2
        · exact Or.inr (Or.inl h2)
        · cases h2
    have hkey : ∀ k ∈ groupsOf (usedGroupKeys df) df.data,
        ∀ bv : Int × Option ℚ,
        rowKey (usedGroupKeys df)
          (restoreKeys (usedGroupKeys df) k { ts := bv.1, value := bv.2 })
          = some k := by
      intro k hk bv
      obtain ⟨r, _, hkk⟩ := mem_groupsOf.mp hk
      exact rowKey_restoreKeys _ k _ hnd hsub (rowKey_length hkk)
    refine ((List.perm_insertionSort rowTsLe _).filter _).trans ?_
    rw [List.filter_flatten, List.map_map]
    rw [flatten_single (groupsOf (usedGroupKeys df) df.data) g _
      (groupsOf_nodup _ _) hg ?hnil]
    case hnil =>
      intro k hk hkg
      simp only [Function.comp]
      rw [List.filter_eq_nil_iff]
      intro a ha
      obtain ⟨bv, _, rfl⟩ := List.mem_map.mp ha
      simp only [hkey k hk bv, decide_eq_true_eq, Option.some.injEq]
      exact hkg
    simp only [Function.comp]
    have hbg : ((resampleSeries ((df.data.filter (fun r =>
          rowKey (usedGroupKeys df) r = some g)).insertionSort rowTsLe)
          d how).map
          (fun bv => restoreKeys (usedGroupKeys df) g
            { ts := bv.1, value := bv.2 })).filter
          (fun r => rowKey (usedGroupKeys df) r = some g)
        = (resampleSeries ((df.data.filter (fun r =>
          rowKey (usedGroupKeys df) r = some g)).insertionSort rowTsLe)
          d how).map
          (fun bv => restoreKeys (usedGroupKeys df) g
            { ts := bv.1, value := bv.2 }) := by
      apply List.filter_eq_self.mpr
      intro a ha
      obtain ⟨bv, _, rfl⟩ := List.mem_map.mp ha
      simp [hkey g hg bv]
    rw [hbg]
    rw [resampleSeries_perm
      (List.perm_insertionSort rowTsLe
        (df.data.filter (fun r => rowKey (usedGroupKeys df) r = some g)))
      d how]
    have hps : df.data.filter (fun r => rowKey (usedGroupKeys df) r = some g)
        = spec_partition (usedGroupKeys df) g df.data := rfl
    rw [hps, resampleSeries_spec, List.map_map]
    exact List.Perm.refl _

/-- C3 amended-theorem witness: the concrete frame `df0` with interval
3600 s, aggregator `mean` and its single group key `["a"]` satisfies the
hypotheses, and the filtered resample output is a permutation of the
per-window aggregation of the partition. -/
theorem resample_timeseries_windows_witness :
    df0.hasTs = true ∧ df0.hasVal = true ∧
    [S "a"] ∈ groupsOf (usedGroupKeys df0) df0.data ∧
    ((resample_timeseries df0 3600 (S "mean") [S "tag", S "stat"]).data.filter
        (fun r => rowKey (usedGroupKeys df0) r = some [S "a"])).Perm
      ((spec_windows 3600
          (spec_partition (usedGroupKeys df0) [S "a"] df0.data)).map
        (fun b => restoreKeys (usedGroupKeys df0) [S "a"]
          { ts := b,
            value := aggOf (S "mean")
              ((spec_window_rows 3600 b
                  (spec_partition (usedGroupKeys df0) [S "a"] df0.data)).filterMap
                (·.value)) })) :=
  ⟨rfl, rfl, by decide,
    resample_timeseries_windows df0 3600 (S "mean") [S "a"] rfl rfl (by decide)⟩
